import Mathlib

/-!
# oauth2nosrv: the redirect-capture rendezvous

A shallow embedding of `oauth2nosrv.go`.  Sequential code is embedded as functions; the
goroutines of `startHTTPServer` (the listener, the handlers, the supervising `select`) are
embedded as a step function over an explicit state, driven by a schedule of events.

Collaborators that live outside the repository (`oauth2.Config.AuthCodeURL`,
`oauth2.Config.Exchange`, `rndm.String`, the Unicode table behind `strconv.IsPrint`) are
taken as parameters, bundled in `Collaborators`.  Go strings are embedded as Lean strings,
that is as sequences of Unicode scalar values.
-/

namespace Oauth2nosrv

/-! ## Constants -/

def DefaultHost : String := "localhost"

def DefaultPort : Int := 14565

def DefaultRedirectURL : String := "/oauth/callback"

/-- One minute, in nanoseconds (`time.Minute * 1`). -/
def DefaultAuthTimeout : Int := 60 * 1000000000

def DefaultSuccessPageContent : String :=
  "\n\t\t<div style=\"height:100px; width:100%!; display:flex; flex-direction: column; justify-content: center; align-items:center; background-color:#2ecc71; color:white; font-size:22\"><div>Success!</div></div>\n\t\t<p style=\"margin-top:20px; font-size:18; text-align:center\">You are authenticated, you can now return to the program. This will auto-close</p>\n\t\t<script>window.onload=function()\x7bsetTimeout(this.close, 4000)\x7d</script>\n\t\t"

def oauthStateStringContextKey : Int := 4562

/-- Five seconds, in nanoseconds (`time.Second * 5`). -/
def serverShutdownTimeout : Int := 5 * 1000000000

/-- The status `http.StatusTemporaryRedirect`. -/
def StatusTemporaryRedirect : Nat := 307

/-! ## Values of the collaborating packages -/

/-- A Go `error` value.  `ErrServerClosed` is the sentinel `http.ErrServerClosed`, which the
code tells apart by identity; every other error is known by its text. -/
inductive GoError where
  | ErrServerClosed
  | errorString (text : String)
deriving DecidableEq, Repr

/-- The method `Error()`. -/
def GoError.Error : GoError → String
  | .ErrServerClosed => "http: Server closed"
  | .errorString text => text

/-- The payload of an `oauth2.Token`; the code only passes it along by pointer. -/
structure Token where
  AccessToken : String
deriving DecidableEq, Repr

/-- A `*oauth2.Token`: `none` is the nil pointer. -/
abbrev TokenPtr := Option Token

/-- The part of an `http.Client` the code sets. -/
structure HttpClient where
  InsecureSkipVerify : Bool
deriving DecidableEq, Repr

/-- The part of an `http.Server` the code sets before serving. -/
structure HttpServer where
  Addr : String
deriving DecidableEq, Repr

/-- The data fields of an `oauth2.Config`. -/
structure Config where
  ClientID : String
  ClientSecret : String
  AuthURL : String
  TokenURL : String
  RedirectURL : String
  Scopes : List String
deriving DecidableEq, Repr

/-- An `oauth2.AuthCodeOption`: one URL parameter. -/
structure AuthCodeOption where
  key : String
  value : String
deriving DecidableEq, Repr

/-- The option `oauth2.AccessTypeOffline`. -/
def AccessTypeOffline : AuthCodeOption := ⟨"access_type", "offline"⟩

/-! ## Contexts -/

/-- Keys of context values: the key `oauth2.HTTPClient`, an `int` used as a key (the code
uses the untyped constant 4562), or a key of the caller. -/
inductive CtxKey where
  | HTTPClient
  | int (n : Int)
  | other (id : Nat)
deriving DecidableEq, Repr

/-- Values stored in a context, by dynamic type. -/
inductive CtxVal where
  | client (c : Option HttpClient)
  | string (s : String)
  | other (id : Nat)
deriving DecidableEq, Repr

/-- The value chain of a `context.Context`, innermost binding first. -/
abbrev Context := List (CtxKey × CtxVal)

/-- The function `context.WithValue`. -/
def Context.WithValue (ctx : Context) (key : CtxKey) (val : CtxVal) : Context :=
  (key, val) :: ctx

/-- The method `ctx.Value(key)`: the innermost binding of the key, `none` for nil. -/
def Context.Value : Context → CtxKey → Option CtxVal
  | [], _ => none
  | (k, v) :: rest, key => if k = key then some v else Context.Value rest key

/-- The collaborators outside the repository. -/
structure Collaborators where
  /-- The method `oauth2.Config.AuthCodeURL(state, opts...)`. -/
  AuthCodeURL : Config → String → List AuthCodeOption → String
  /-- The method `oauth2.Config.Exchange(ctx, code)`: a token pointer and an error. -/
  Exchange : Config → Context → String → TokenPtr × Option GoError
  /-- The function `rndm.String(n)`. -/
  rndmString : Nat → String
  /-- The tables of `strconv.IsPrint` for runes above 0xFF. -/
  isPrintWide : Nat → Bool
  /-- Whether `http.ServeMux.Handle` accepts the pattern (it panics otherwise). -/
  validPattern : String → Bool

/-! ## Formatting: the verbs `%s`, `%d` and `%q` of package `fmt` -/

/-- The verb `%d` on an `int`. -/
def fmtD (n : Int) : String :=
  if n < 0 then "-" ++ Nat.repr n.natAbs else Nat.repr n.natAbs

/-- The digit table `lowerhex` of `strconv`, at index `d`. -/
def lowerhex (d : Nat) : Char :=
  ['0', '1', '2', '3', '4', '5', '6', '7', '8', '9', 'a', 'b', 'c', 'd', 'e', 'f'].getD d '0'

/-- The function `strconv.IsPrint`: the Latin-1 fast path is the code's, the tables for
wider runes are the parameter. -/
def IsPrint (wide : Nat → Bool) (r : Nat) : Bool :=
  if r ≤ 0xFF then
    if 0x20 ≤ r ∧ r ≤ 0x7E then true
    else if 0xA1 ≤ r ∧ r ≤ 0xFF then r ≠ 0xAD
    else false
  else wide r

/-- The hexadecimal digits of `r` from shift `4 * (n - 1)` down to shift 0. -/
def hexDigits (r : Nat) : Nat → List Char
  | 0 => []
  | n + 1 => lowerhex (r / 16 ^ n % 16) :: hexDigits r n

/-- What `strconv.appendEscapedRune` appends for one rune, with the quote `"` and neither
`ASCIIonly` nor `graphicOnly` set. -/
def escapedRune (wide : Nat → Bool) (c : Char) : List Char :=
  if c = '"' ∨ c = '\\' then ['\\', c]
  else if IsPrint wide c.toNat then [c]
  else if c.toNat = 7 then ['\\', 'a']
  else if c.toNat = 8 then ['\\', 'b']
  else if c.toNat = 12 then ['\\', 'f']
  else if c.toNat = 10 then ['\\', 'n']
  else if c.toNat = 13 then ['\\', 'r']
  else if c.toNat = 9 then ['\\', 't']
  else if c.toNat = 11 then ['\\', 'v']
  else if c.toNat < 0x20 ∨ c.toNat = 0x7f then '\\' :: 'x' :: hexDigits c.toNat 2
  else if c.toNat < 0x10000 then '\\' :: 'u' :: hexDigits c.toNat 4
  else '\\' :: 'U' :: hexDigits c.toNat 8

/-- The function `strconv.Quote`, which is the verb `%q` on a string. -/
def Quote (wide : Nat → Bool) (s : String) : String :=
  ⟨'"' :: (s.data.flatMap (escapedRune wide) ++ ['"'])⟩

/-- The verb `%q` on an `error`: the quoted text of `Error()`. -/
def fmtQError (wide : Nat → Bool) (e : GoError) : String :=
  Quote wide e.Error

/-! ## The callback handler -/

/-- The form values of a request that the handler reads: `r.FormValue("state")` and
`r.FormValue("code")`, each the empty string when the parameter is absent. -/
structure Request where
  state : String
  code : String
deriving DecidableEq, Repr

/-- The actions of a handler, in program order.  A send is the send statement: both channels
are unbuffered, so in a run it completes only together with a receive (see `step`). -/
inductive Action where
  /-- The call `oauthConfig.Exchange(ctx, code)`. -/
  | exchange (code : String)
  /-- The send `errs <- e`. -/
  | sendErr (e : GoError)
  /-- The send `tokens <- t`. -/
  | sendToken (t : TokenPtr)
  /-- The call `http.Redirect(w, r, url, status)`. -/
  | redirect (url : String) (status : Nat)
  /-- The call `w.Write([]byte(body))`. -/
  | write (body : String)
deriving DecidableEq, Repr

/-- The error of the state check, `fmt.Errorf("invalid oauth state, expected %q, got %q", ..)`. -/
def stateError (wide : Nat → Bool) (requestStateString responseStateString : String) : GoError :=
  .errorString ("invalid oauth state, expected " ++ Quote wide requestStateString ++
    ", got " ++ Quote wide responseStateString)

/-- The error of a failed exchange, `fmt.Errorf("oauthoauthConfig.Exchange() failed with %q", err)`. -/
def exchangeError (wide : Nat → Bool) (err : GoError) : GoError :=
  .errorString ("oauthoauthConfig.Exchange() failed with " ++ fmtQError wide err)

/-- The function returned by `callbackHandler`, run on one request: the handler's actions in
program order, or `none` when the type assertion `ctx.Value(..).(string)` panics. -/
def callbackHandler (lib : Collaborators) (ctx : Context) (oauthConfig : Config)
    (successPage : String) (r : Request) : Option (List Action) :=
  match ctx.Value (.int oauthStateStringContextKey) with
  | some (.string requestStateString) =>
    let responseStateString := r.state
    if responseStateString ≠ requestStateString then
      some [.sendErr (stateError lib.isPrintWide requestStateString responseStateString),
            .redirect "/" StatusTemporaryRedirect]
    else
      let code := r.code
      match lib.Exchange oauthConfig ctx code with
      | (_, some err) =>
        some [.exchange code, .sendErr (exchangeError lib.isPrintWide err),
              .redirect "/" StatusTemporaryRedirect]
      | (token, none) =>
        some [.exchange code, .write successPage, .sendToken token]
  | _ => none

/-! ## Options and construction -/

structure options where
  host : String
  port : Int
  redirectURL : String
  authTimeout : Int
  successPageContent : String
  client : Option HttpClient
  server : Option HttpServer
deriving DecidableEq, Repr

/-- The values of the interface `Option`.  Its only method is unexported, so an option is a
value built by one of the five `With` functions of the package (the nil interface value, on
which `apply` cannot be called, is not one). -/
inductive ServerOption where
  | WithHost (host : String)
  | WithPort (port : Int)
  | WithRedirectURL (redirectURL : String)
  | WithClient (client : Option HttpClient)
  | WithServer (server : Option HttpServer)
deriving DecidableEq, Repr

/-- The method `apply`: each option runs its closure on the options record. -/
def ServerOption.apply : ServerOption → options → options
  | .WithHost host, o => { o with host := host }
  | .WithPort port, o => { o with port := port }
  | .WithRedirectURL redirectURL, o => { o with redirectURL := redirectURL }
  | .WithClient client, o => { o with client := client }
  | .WithServer server, o => { o with server := server }

structure server where
  oauthConfig : Config
  options : options
  oauthStateString : String
deriving DecidableEq, Repr

/-- Effects on the process: drawing the random state and starting the listener. -/
inductive Effect where
  /-- The call `rndm.String(n)`. -/
  | randString (n : Nat)
  /-- The call `srv.ListenAndServe()` of a server with address `addr`. -/
  | listenAndServe (addr : String)
deriving DecidableEq, Repr

/-- The literal `defaultOptions` of `New`. -/
def defaultOptions : options :=
  { host := DefaultHost
    port := DefaultPort
    redirectURL := DefaultRedirectURL
    successPageContent := DefaultSuccessPageContent
    client := some { InsecureSkipVerify := true }
    authTimeout := DefaultAuthTimeout
    server := none }

/-- The loop `for _, o := range opts { o.apply(&defaultOptions) }`. -/
def applyAll (opts : List ServerOption) (o : options) : options :=
  opts.foldl (fun acc opt => opt.apply acc) o

/-- The function `New`: the returned pair (server, error), `none` for nil, and the effects
performed.  The configuration is passed by pointer; the server holds the updated record. -/
def New (lib : Collaborators) (oauthConfig : Option Config) (opts : List ServerOption) :
    (Option server × Option GoError) × List Effect :=
  match oauthConfig with
  | none => ((none, some (.errorString "oauthConfig can't be nil")), [])
  | some conf =>
    let o := applyAll opts defaultOptions
    let o := if o.server = none then
        { o with server := some { Addr := o.host ++ ":" ++ fmtD o.port } }
      else o
    let conf := { conf with
      RedirectURL := "http://" ++ o.host ++ ":" ++ fmtD o.port ++ o.redirectURL }
    let oauthStateString := lib.rndmString 8
    ((some { oauthConfig := conf, options := o, oauthStateString := oauthStateString }, none),
      [.randString 8])

/-- The method `AuthURL`: the URL returned, and the receiver after the call. -/
def server.AuthURL (lib : Collaborators) (s : server) : String × server :=
  (lib.AuthCodeURL s.oauthConfig s.oauthStateString [AccessTypeOffline], s)

/-! ## Serving: `serveWithContext` and `startHTTPServer` -/

/-- The case of the `select` in `serveWithContext` that fires, with what the call behind it
returned (`none` for a nil error). -/
inductive SelectCase where
  /-- The case `<-ctx.Done()`; `srv.Shutdown` returned `shutdownErr`. -/
  | ctxDone (shutdownErr : Option GoError)
  /-- The case `err := <-errs`; `srv.ListenAndServe` returned `listenErr`. -/
  | listenReturned (listenErr : Option GoError)
deriving DecidableEq, Repr

/-- The function `serveWithContext`, by the case of its `select`. -/
def serveWithContext : SelectCase → Option GoError
  | .ctxDone shutdownErr =>
    match shutdownErr with
    | some err => some err
    | none => none
  | .listenReturned listenErr =>
    if listenErr ≠ some GoError.ErrServerClosed then listenErr else none

/-- The tail of `startHTTPServer`: the value returned once `serveWithContext` has returned,
from the named results `token` and `err` as they stand. -/
def startHTTPServerReturn (token : TokenPtr) (err : Option GoError) (c : SelectCase) :
    TokenPtr × Option GoError :=
  match serveWithContext c with
  | some e => (none, some e)
  | none => (token, err)

/-- The state of one call of `startHTTPServer`. -/
structure RunState where
  /-- The context captured by the handler closure. -/
  ctx : Context
  /-- The configuration captured by the handler closure. -/
  conf : Config
  /-- The success page captured by the handler closure. -/
  successPage : String
  /-- The named result `token`. -/
  token : TokenPtr
  /-- The named result `err`. -/
  err : Option GoError
  /-- Whether the supervising goroutine is still at its `select`. -/
  receiving : Bool
  /-- Whether `newCtx` is done: `cancel()` was called or the caller's context is done. -/
  done : Bool
  /-- The actions each handler goroutine has yet to perform, in order of arrival. -/
  handlers : List (List Action)
  /-- The actions performed so far, with the index of the handler, oldest first. -/
  performed : List (Nat × Action)
  /-- The process effects so far, oldest first. -/
  effects : List Effect
  /-- The value `startHTTPServer` returned, once it has. -/
  returned : Option (TokenPtr × Option GoError)
deriving DecidableEq, Repr

/-- What the scheduler and the environment may do next. -/
inductive Event where
  /-- A request routed to the callback pattern arrives: a handler goroutine starts. -/
  | request (r : Request)
  /-- Handler `i` performs its next action. -/
  | advance (i : Nat)
  /-- The caller's context is cancelled. -/
  | cancelCtx
  /-- The `select` of `serveWithContext` fires with case `c`, the call behind the case has
  returned what `c` records, and `startHTTPServer` returns. -/
  | select (c : SelectCase)
deriving DecidableEq, Repr

/-- Whether an action is a send on one of the two channels. -/
def Action.isSend : Action → Bool
  | .sendErr _ => true
  | .sendToken _ => true
  | _ => false

/-- The supervising goroutine of `startHTTPServer` receives the value of a send: it stores
it in the named result of the channel and calls `cancel()`. -/
def receive (s : RunState) : Action → RunState
  | .sendToken t => { s with token := t, receiving := false, done := true }
  | .sendErr e => { s with err := some e, receiving := false, done := true }
  | _ => s

/-- One step of a call of `startHTTPServer`; `none` when the event cannot happen in the state.
Both channels are unbuffered, so a send happens only together with the receive, and the
supervising goroutine receives once. -/
def step (lib : Collaborators) (s : RunState) : Event → Option RunState
  | .request r =>
    if s.returned = none then
      some { s with
        handlers := s.handlers ++
          [(callbackHandler lib s.ctx s.conf s.successPage r).getD []] }
    else none
  | .advance i =>
    match s.handlers[i]? with
    | some (a :: rest) =>
      if a.isSend ∧ s.receiving = false then none
      else
        let s := { s with
          handlers := s.handlers.set i rest
          performed := s.performed ++ [(i, a)] }
        some (if a.isSend then receive s a else s)
    | _ => none
  | .cancelCtx => some { s with done := true }
  | .select c =>
    if s.returned ≠ none then none
    else
      match c with
      | .ctxDone _ =>
        if s.done then some { s with returned := some (startHTTPServerReturn s.token s.err c) }
        else none
      | .listenReturned _ =>
        some { s with returned := some (startHTTPServerReturn s.token s.err c) }

/-- A schedule run from a state; `none` when one of its events cannot happen. -/
def run (lib : Collaborators) : RunState → List Event → Option RunState
  | s, [] => some s
  | s, e :: es =>
    match step lib s e with
    | some s1 => run lib s1 es
    | none => none

/-- The function `startHTTPServer` up to the point where it has installed the handler and
started its goroutines: the state from which the call runs.  There is none when the call
panics before: `mux.Handle` panics on a pattern it rejects, and `srv.Handler = mux` on a nil
server. -/
def startHTTPServer (lib : Collaborators) (ctx : Context) (conf : Config) (opts : options) :
    Option RunState :=
  if lib.validPattern opts.redirectURL = false then none
  else
    match opts.server with
    | none => none
    | some srv =>
      some
        { ctx := ctx
          conf := conf
          successPage := opts.successPageContent
          token := none
          err := none
          receiving := true
          done := false
          handlers := []
          performed := []
          effects := [.listenAndServe srv.Addr]
          returned := none }

/-- The method `StartAndWaitForToken`: the state from which the call runs. -/
def server.StartAndWaitForToken (lib : Collaborators) (s : server) (ctx : Context) :
    Option RunState :=
  let ctx := ctx.WithValue .HTTPClient (.client s.options.client)
  let ctx := ctx.WithValue (.int oauthStateStringContextKey) (.string s.oauthStateString)
  startHTTPServer lib ctx s.oauthConfig s.options

/-- The value `StartAndWaitForToken` returns along a schedule, when the call starts, the
schedule can happen and the call returns in it. -/
def server.waitResult (lib : Collaborators) (s : server) (ctx : Context) (evs : List Event) :
    Option (TokenPtr × Option GoError) :=
  match s.StartAndWaitForToken lib ctx with
  | some s0 =>
    match run lib s0 evs with
    | some st => st.returned
    | none => none
  | none => none


/-! ## Predicates on actions and example values -/

def Action.isSendErr : Action → Bool
  | .sendErr _ => true
  | _ => false

def Action.isSendToken : Action → Bool
  | .sendToken _ => true
  | _ => false

def Action.isExchange : Action → Bool
  | .exchange _ => true
  | _ => false

def Action.isWrite : Action → Bool
  | .write _ => true
  | _ => false

/-- The host an option list asks for: the last `WithHost` given, else the default. -/
def chosenHost (opts : List ServerOption) : String :=
  ((opts.filterMap fun o => match o with
    | .WithHost host => some host
    | _ => none).getLast?).getD DefaultHost

/-- The port an option list asks for: the last `WithPort` given, else the default. -/
def chosenPort (opts : List ServerOption) : Int :=
  ((opts.filterMap fun o => match o with
    | .WithPort port => some port
    | _ => none).getLast?).getD DefaultPort

/-- The callback path an option list asks for: the last `WithRedirectURL` given, else the
default. -/
def chosenRedirectURL (opts : List ServerOption) : String :=
  ((opts.filterMap fun o => match o with
    | .WithRedirectURL redirectURL => some redirectURL
    | _ => none).getLast?).getD DefaultRedirectURL

/-- The number of sends among logged actions: the values the supervising goroutine received. -/
def deliveries (log : List (Nat × Action)) : Nat :=
  log.countP fun p => p.2.isSend

/-- Collaborators for the examples: the exchange fails on the code `bad` and succeeds on
every other code, the random string is fixed, every wide rune is printable, and only the
empty pattern is rejected. -/
def exampleLib : Collaborators :=
  { AuthCodeURL := fun conf state _ => conf.AuthURL ++ "?state=" ++ state
    Exchange := fun _ _ code =>
      if code = "bad" then (none, some (.errorString "invalid_grant"))
      else (some { AccessToken := "tok-" ++ code }, none)
    rndmString := fun _ => "abcdefgh"
    isPrintWide := fun _ => true
    validPattern := fun pattern => pattern ≠ "" }

/-- The configuration of the example test. -/
def exampleConf : Config :=
  { ClientID := "000000"
    ClientSecret := "999999"
    AuthURL := "http://localhost:9096/authorize"
    TokenURL := "http://localhost:9096/token"
    RedirectURL := ""
    Scopes := [] }

/-- The server `New` builds from the example configuration with no options. -/
def exampleServer : server :=
  { oauthConfig := { exampleConf with RedirectURL := "http://localhost:14565/oauth/callback" }
    options := { defaultOptions with server := some { Addr := "localhost:14565" } }
    oauthStateString := "abcdefgh" }

/-- A context that expects the state `E`. -/
def exampleCtx : Context :=
  [(.int oauthStateStringContextKey, .string "E")]

/-- Whether an action touches the response: a redirect or a body write. -/
def Action.isResponse : Action → Bool
  | .redirect _ _ => true
  | .write _ => true
  | _ => false

/-- A character `strconv.Quote` copies unchanged: printable, and neither the quote nor the
backslash. -/
def plainRune (wide : Nat → Bool) (c : Char) : Bool :=
  c ≠ '"' ∧ c ≠ '\\' ∧ IsPrint wide c.toNat = true

/-- The state from which `StartAndWaitForToken` of the example server runs, on a caller
context without values. -/
def exampleStart : RunState :=
  { ctx := [(.int oauthStateStringContextKey, .string "abcdefgh"),
      (.HTTPClient, .client (some { InsecureSkipVerify := true }))]
    conf := exampleServer.oauthConfig
    successPage := DefaultSuccessPageContent
    token := none
    err := none
    receiving := true
    done := false
    handlers := []
    performed := []
    effects := [.listenAndServe "localhost:14565"]
    returned := none }

/-- The example run after the caller cancelled and the listener shut down cleanly. -/
def exampleCancelled : RunState :=
  { exampleStart with done := true, returned := some (none, none) }

/-- The example run after two requests with the right state, codes `c1` and `c2`, have
reached the handler, both handlers have come to their send, and the token of the first has
been received. -/
def exampleDelivered : RunState :=
  { exampleStart with
    token := some { AccessToken := "tok-c1" }
    receiving := false
    done := true
    handlers := [[], [.sendToken (some { AccessToken := "tok-c2" })]]
    performed := [(0, .exchange "c1"), (0, .write DefaultSuccessPageContent),
      (1, .exchange "c2"), (1, .write DefaultSuccessPageContent),
      (0, .sendToken (some { AccessToken := "tok-c1" }))] }

/-- The decimal numeral of an integer, independently of package `fmt`: a minus sign for a
negative number, then the base-ten digits of the absolute value (`Nat.digits 10`), most
significant first, each as its ASCII character; the single digit `0` for zero. -/
def decimal (n : Int) : String :=
  let digits := if n.natAbs = 0 then ['0']
    else (Nat.digits 10 n.natAbs).reverse.map fun d => Char.ofNat (48 + d)
  ⟨if n < 0 then '-' :: digits else digits⟩

/-- The example run after two requests with a wrong state, `x` and `y`, have reached the
handler, the error of the first has been received and its handler has redirected. -/
def exampleRejected : RunState :=
  { exampleStart with
    err := some (.errorString "invalid oauth state, expected \"abcdefgh\", got \"x\"")
    receiving := false
    done := true
    handlers := [[], [.sendErr (.errorString
      "invalid oauth state, expected \"abcdefgh\", got \"y\""), .redirect "/" 307]]
    performed := [(0, .sendErr (.errorString
      "invalid oauth state, expected \"abcdefgh\", got \"x\"")), (0, .redirect "/" 307)] }

/-! ## The callback handler -/

theorem callbackHandler_mismatch_eq (lib : Collaborators) (ctx : Context) (conf : Config)
    (page : String) (r : Request) (expected : String)
    (hctx : ctx.Value (.int oauthStateStringContextKey) = some (.string expected))
    (hne : r.state ≠ expected) :
    callbackHandler lib ctx conf page r =
      some [.sendErr (stateError lib.isPrintWide expected r.state),
            .redirect "/" StatusTemporaryRedirect] := by
  simp [callbackHandler, hctx, hne]

theorem callbackHandler_exchange_failed_eq (lib : Collaborators) (ctx : Context) (conf : Config)
    (page : String) (r : Request) (expected : String) (tok : TokenPtr) (e : GoError)
    (hctx : ctx.Value (.int oauthStateStringContextKey) = some (.string expected))
    (heq : r.state = expected) (hex : lib.Exchange conf ctx r.code = (tok, some e)) :
    callbackHandler lib ctx conf page r =
      some [.exchange r.code, .sendErr (exchangeError lib.isPrintWide e),
            .redirect "/" StatusTemporaryRedirect] := by
  simp [callbackHandler, hctx, heq, hex]

theorem callbackHandler_success_eq (lib : Collaborators) (ctx : Context) (conf : Config)
    (page : String) (r : Request) (expected : String) (t : TokenPtr)
    (hctx : ctx.Value (.int oauthStateStringContextKey) = some (.string expected))
    (heq : r.state = expected) (hex : lib.Exchange conf ctx r.code = (t, none)) :
    callbackHandler lib ctx conf page r =
      some [.exchange r.code, .write page, .sendToken t] := by
  simp [callbackHandler, hctx, heq, hex]

/-- C1: on a request whose `state` differs from the expected state stored in the context,
the handler performs exactly one send on `errs`, no send on `tokens` and no call of
`Exchange`, whatever the `code` is. -/
theorem callbackHandler_state_mismatch (lib : Collaborators) (ctx : Context) (conf : Config)
    (page : String) (r : Request) (expected : String)
    (hctx : ctx.Value (.int oauthStateStringContextKey) = some (.string expected))
    (hne : r.state ≠ expected) :
    ∃ acts, callbackHandler lib ctx conf page r = some acts ∧
      acts.countP Action.isSendErr = 1 ∧
      acts.countP Action.isSendToken = 0 ∧
      acts.countP Action.isExchange = 0 := by
  refine ⟨_, callbackHandler_mismatch_eq lib ctx conf page r expected hctx hne, ?_, ?_, ?_⟩ <;>
    simp [List.countP_cons, Action.isSendErr, Action.isSendToken, Action.isExchange]

theorem callbackHandler_state_mismatch_witness :
    ∃ acts, callbackHandler exampleLib exampleCtx exampleConf "ok" ⟨"G", "c"⟩ = some acts ∧
      acts.countP Action.isSendErr = 1 ∧
      acts.countP Action.isSendToken = 0 ∧
      acts.countP Action.isExchange = 0 :=
  callbackHandler_state_mismatch exampleLib exampleCtx exampleConf "ok" ⟨"G", "c"⟩ "E"
    (by decide) (by decide)

theorem escapedRune_plain (wide : Nat → Bool) (c : Char) (h : plainRune wide c = true) :
    escapedRune wide c = [c] := by
  simp only [plainRune, decide_eq_true_eq, ne_eq] at h
  simp [escapedRune, h.1, h.2.1, h.2.2]

theorem flatMap_escapedRune_plain (wide : Nat → Bool) (l : List Char)
    (h : ∀ c ∈ l, plainRune wide c = true) : l.flatMap (escapedRune wide) = l := by
  induction l with
  | nil => rfl
  | cons c cs ih =>
    have hc := escapedRune_plain wide c (h c (List.mem_cons_self c cs))
    have hcs := ih fun d hd => h d (List.mem_cons_of_mem c hd)
    simp [List.flatMap_cons, hc, hcs]

/-- On a string of plain characters `Quote` only adds the two quotes. -/
theorem Quote_plain (wide : Nat → Bool) (s : String)
    (h : ∀ c ∈ s.data, plainRune wide c = true) : Quote wide s = "\"" ++ s ++ "\"" := by
  apply String.ext
  simp [Quote, flatMap_escapedRune_plain wide s.data h]

/-- C10, as the code has it: on a state mismatch with expected state `E` and received state
`G` the handler sends the error whose text is `invalid oauth state, expected ` followed by
`E` quoted, `, got ` and `G` quoted; when both states are made of plain characters the text
is `invalid oauth state, expected "E", got "G"`. -/
theorem stateError_message (lib : Collaborators) (ctx : Context)
    (conf : Config) (page : String) (r : Request) (expected : String)
    (hctx : ctx.Value (.int oauthStateStringContextKey) = some (.string expected))
    (hne : r.state ≠ expected) :
    ∃ e, callbackHandler lib ctx conf page r =
        some [.sendErr e, .redirect "/" StatusTemporaryRedirect] ∧
      e.Error = "invalid oauth state, expected " ++ Quote lib.isPrintWide expected ++
        ", got " ++ Quote lib.isPrintWide r.state ∧
      ((∀ c ∈ expected.data, plainRune lib.isPrintWide c = true) →
        (∀ c ∈ r.state.data, plainRune lib.isPrintWide c = true) →
        e.Error = "invalid oauth state, expected \"" ++ expected ++ "\", got \"" ++
          r.state ++ "\"") := by
  refine ⟨_, callbackHandler_mismatch_eq lib ctx conf page r expected hctx hne, rfl, ?_⟩
  intro h1 h2
  simp only [stateError, GoError.Error, Quote_plain _ _ h1, Quote_plain _ _ h2]
  apply String.ext
  simp [List.append_assoc]

theorem stateError_message_witness :
    ∃ e, callbackHandler exampleLib exampleCtx exampleConf "ok" ⟨"G", "c"⟩ =
        some [.sendErr e, .redirect "/" StatusTemporaryRedirect] ∧
      e.Error = "invalid oauth state, expected " ++ Quote exampleLib.isPrintWide "E" ++
        ", got " ++ Quote exampleLib.isPrintWide (Request.state ⟨"G", "c"⟩) ∧
      ((∀ c ∈ "E".data, plainRune exampleLib.isPrintWide c = true) →
        (∀ c ∈ (Request.state ⟨"G", "c"⟩).data, plainRune exampleLib.isPrintWide c = true) →
        e.Error = "invalid oauth state, expected \"" ++ "E" ++ "\", got \"" ++
          (Request.state ⟨"G", "c"⟩) ++ "\"") :=
  stateError_message exampleLib exampleCtx exampleConf "ok" ⟨"G", "c"⟩ "E"
    (by decide) (by decide)

/-- C10, as the claim has it, fails: with expected state `E` and received state `G` the text
of the error sent is not `state mismatch: expected E, got G`. -/
theorem stateError_message_counterexample :
    callbackHandler exampleLib exampleCtx exampleConf "ok" ⟨"G", "c"⟩ =
        some [.sendErr (.errorString "invalid oauth state, expected \"E\", got \"G\""),
              .redirect "/" StatusTemporaryRedirect] ∧
      GoError.Error (.errorString "invalid oauth state, expected \"E\", got \"G\"") ≠
        "state mismatch: expected E, got G" := by
  decide

/-! ## `Quote` loses nothing -/

theorem lowerhex_inj (a b : Nat) (ha : a < 16) (hb : b < 16) (h : lowerhex a = lowerhex b) :
    a = b := by
  have key : ∀ x y : Fin 16, lowerhex x.val = lowerhex y.val → x = y := by decide
  have := key ⟨a, ha⟩ ⟨b, hb⟩ h
  exact congrArg Fin.val this

theorem hexDigits_append_mod (n : Nat) (r r1 : Nat) (xs ys : List Char)
    (h : hexDigits r n ++ xs = hexDigits r1 n ++ ys) :
    r % 16 ^ n = r1 % 16 ^ n ∧ xs = ys := by
  induction n with
  | zero => simpa [hexDigits, Nat.mod_one] using h
  | succ n ih =>
    simp only [hexDigits, List.cons_append, List.cons.injEq] at h
    have hd := lowerhex_inj _ _ (Nat.mod_lt _ (by norm_num)) (Nat.mod_lt _ (by norm_num)) h.1
    obtain ⟨h1, h2⟩ := ih h.2
    refine ⟨?_, h2⟩
    rw [Nat.mod_pow_succ, Nat.mod_pow_succ, h1, hd]

theorem char_eq_of_toNat_eq (c d : Char) (h : c.toNat = d.toNat) : c = d := by
  apply Char.ext
  apply UInt32.ext
  simpa [Char.toNat, UInt32.toNat] using h

theorem char_toNat_lt (c : Char) : c.toNat < 16 ^ 8 := by
  have := c.val.val.isLt
  simp only [Char.toNat, UInt32.toNat]
  norm_num [UInt32.size] at this ⊢
  exact this

/-- The shapes of an escaped rune: the rune itself, a backslash before a quote or backslash,
a control letter, or a hexadecimal escape of two, four or eight digits. -/
theorem escapedRune_shape (wide : Nat → Bool) (c : Char) :
    (escapedRune wide c = [c] ∧ c ≠ '\\') ∨
    (escapedRune wide c = ['\\', c] ∧ (c = '"' ∨ c = '\\')) ∨
    (∃ t, escapedRune wide c = ['\\', t] ∧
      (t, c.toNat) ∈ [('a', 7), ('b', 8), ('f', 12), ('n', 10), ('r', 13), ('t', 9), ('v', 11)]) ∨
    (escapedRune wide c = '\\' :: 'x' :: hexDigits c.toNat 2 ∧ c.toNat < 16 ^ 2) ∨
    (escapedRune wide c = '\\' :: 'u' :: hexDigits c.toNat 4 ∧ c.toNat < 16 ^ 4) ∨
    (escapedRune wide c = '\\' :: 'U' :: hexDigits c.toNat 8) := by
  unfold escapedRune
  by_cases h1 : c = '"' ∨ c = '\\'
  · right; left; simp [h1]
  rw [if_neg h1]
  by_cases h2 : IsPrint wide c.toNat = true
  · left; rw [if_pos h2]; exact ⟨rfl, fun h => h1 (Or.inr h)⟩
  rw [if_neg h2]
  by_cases h7 : c.toNat = 7
  · right; right; left; exact ⟨'a', by rw [if_pos h7], by simp [h7]⟩
  rw [if_neg h7]
  by_cases h8 : c.toNat = 8
  · right; right; left; exact ⟨'b', by rw [if_pos h8], by simp [h8]⟩
  rw [if_neg h8]
  by_cases h12 : c.toNat = 12
  · right; right; left; exact ⟨'f', by rw [if_pos h12], by simp [h12]⟩
  rw [if_neg h12]
  by_cases h10 : c.toNat = 10
  · right; right; left; exact ⟨'n', by rw [if_pos h10], by simp [h10]⟩
  rw [if_neg h10]
  by_cases h13 : c.toNat = 13
  · right; right; left; exact ⟨'r', by rw [if_pos h13], by simp [h13]⟩
  rw [if_neg h13]
  by_cases h9 : c.toNat = 9
  · right; right; left; exact ⟨'t', by rw [if_pos h9], by simp [h9]⟩
  rw [if_neg h9]
  by_cases h11 : c.toNat = 11
  · right; right; left; exact ⟨'v', by rw [if_pos h11], by simp [h11]⟩
  rw [if_neg h11]
  by_cases hx : c.toNat < 0x20 ∨ c.toNat = 0x7f
  · right; right; right; left; rw [if_pos hx]; exact ⟨rfl, by omega⟩
  rw [if_neg hx]
  by_cases hu : c.toNat < 0x10000
  · right; right; right; right; left; rw [if_pos hu]; exact ⟨rfl, by omega⟩
  rw [if_neg hu]
  right; right; right; right; right; rfl

theorem ctrl_letter_code (t : Char) (m n : Nat)
    (hm : (t, m) ∈ [('a', 7), ('b', 8), ('f', 12), ('n', 10), ('r', 13), ('t', 9), ('v', 11)])
    (hn : (t, n) ∈ [('a', 7), ('b', 8), ('f', 12), ('n', 10), ('r', 13), ('t', 9), ('v', 11)]) :
    m = n := by
  simp only [List.mem_cons, Prod.mk.injEq, List.mem_singleton, List.mem_nil_iff, or_false] at hm hn
  rcases hm with ⟨rfl, rfl⟩ | ⟨rfl, rfl⟩ | ⟨rfl, rfl⟩ | ⟨rfl, rfl⟩ | ⟨rfl, rfl⟩ | ⟨rfl, rfl⟩ | ⟨rfl, rfl⟩ <;>
    simp at hn <;> exact hn.symm

theorem ctrl_letter_ne (t : Char) (m : Nat)
    (hm : (t, m) ∈ [('a', 7), ('b', 8), ('f', 12), ('n', 10), ('r', 13), ('t', 9), ('v', 11)]) :
    t ≠ '"' ∧ t ≠ '\\' ∧ t ≠ 'x' ∧ t ≠ 'u' ∧ t ≠ 'U' := by
  simp only [List.mem_cons, Prod.mk.injEq, List.mem_singleton, List.mem_nil_iff, or_false] at hm
  rcases hm with ⟨rfl, rfl⟩ | ⟨rfl, rfl⟩ | ⟨rfl, rfl⟩ | ⟨rfl, rfl⟩ | ⟨rfl, rfl⟩ | ⟨rfl, rfl⟩ | ⟨rfl, rfl⟩ <;>
    decide

theorem quote_or_backslash_ne (c : Char) (h : c = '"' ∨ c = '\\') :
    c ≠ 'x' ∧ c ≠ 'u' ∧ c ≠ 'U' := by
  rcases h with rfl | rfl <;> decide

theorem hexDigits_prefix (n : Nat) (c d : Char) (xs ys : List Char)
    (hc : c.toNat < 16 ^ n) (hd : d.toNat < 16 ^ n)
    (h : hexDigits c.toNat n ++ xs = hexDigits d.toNat n ++ ys) : c = d ∧ xs = ys := by
  obtain ⟨h1, h2⟩ := hexDigits_append_mod n _ _ xs ys h
  rw [Nat.mod_eq_of_lt hc, Nat.mod_eq_of_lt hd] at h1
  exact ⟨char_eq_of_toNat_eq c d h1, h2⟩

/-- The escapes form a prefix code: an escaped rune at the head of a list determines the
rune and the rest. -/
theorem escapedRune_prefix (wide : Nat → Bool) (c d : Char) (xs ys : List Char)
    (h : escapedRune wide c ++ xs = escapedRune wide d ++ ys) : c = d ∧ xs = ys := by
  have hc := char_toNat_lt c
  have hd := char_toNat_lt d
  rcases escapedRune_shape wide c with ⟨ec, c1⟩ | ⟨ec, c1⟩ | ⟨t, ec, c1⟩ | ⟨ec, c1⟩ | ⟨ec, c1⟩ | ec <;>
  rcases escapedRune_shape wide d with ⟨ed, d1⟩ | ⟨ed, d1⟩ | ⟨u, ed, d1⟩ | ⟨ed, d1⟩ | ⟨ed, d1⟩ | ed <;>
  rw [ec, ed] at h <;>
  simp only [List.cons_append, List.nil_append, List.cons.injEq, true_and] at h
  all_goals first
    | exact h
    | exact absurd h.1 c1
    | exact absurd h.1.symm d1
    | exact hexDigits_prefix _ c d xs ys c1 d1 h
    | exact hexDigits_prefix _ c d xs ys hc hd h
    | exact absurd h.1 (quote_or_backslash_ne c c1).1
    | exact absurd h.1 (quote_or_backslash_ne c c1).2.1
    | exact absurd h.1 (quote_or_backslash_ne c c1).2.2
    | exact absurd h.1.symm (quote_or_backslash_ne d d1).1
    | exact absurd h.1.symm (quote_or_backslash_ne d d1).2.1
    | exact absurd h.1.symm (quote_or_backslash_ne d d1).2.2
    | exact absurd h.1 (ctrl_letter_ne t _ c1).2.2.1
    | exact absurd h.1 (ctrl_letter_ne t _ c1).2.2.2.1
    | exact absurd h.1 (ctrl_letter_ne t _ c1).2.2.2.2
    | exact absurd h.1.symm (ctrl_letter_ne u _ d1).2.2.1
    | exact absurd h.1.symm (ctrl_letter_ne u _ d1).2.2.2.1
    | exact absurd h.1.symm (ctrl_letter_ne u _ d1).2.2.2.2
    | (exfalso
       rcases c1 with e | e
       · exact (ctrl_letter_ne u _ d1).1 (h.1 ▸ e)
       · exact (ctrl_letter_ne u _ d1).2.1 (h.1 ▸ e))
    | (exfalso
       rcases d1 with e | e
       · exact (ctrl_letter_ne t _ c1).1 (h.1 ▸ e)
       · exact (ctrl_letter_ne t _ c1).2.1 (h.1 ▸ e))
    | (obtain ⟨h1, h2⟩ := h
       subst h1
       exact ⟨char_eq_of_toNat_eq c d (ctrl_letter_code t _ _ c1 d1), h2⟩)
    | (exfalso; simp at h)

theorem flatMap_escapedRune_inj (wide : Nat → Bool) (l1 l2 : List Char)
    (h : l1.flatMap (escapedRune wide) ++ ['"'] = l2.flatMap (escapedRune wide) ++ ['"']) :
    l1 = l2 := by
  induction l1 generalizing l2 with
  | nil =>
    cases l2 with
    | nil => rfl
    | cons d ds =>
      exfalso
      simp only [List.flatMap_nil, List.nil_append, List.flatMap_cons, List.append_assoc] at h
      rcases escapedRune_shape wide d with ⟨ed, d1⟩ | ⟨ed, -⟩ | ⟨u, ed, -⟩ | ⟨ed, -⟩ | ⟨ed, -⟩ | ed <;>
        rw [ed] at h <;> simp at h
  | cons c cs ih =>
    cases l2 with
    | nil =>
      exfalso
      simp only [List.flatMap_nil, List.nil_append, List.flatMap_cons, List.append_assoc] at h
      rcases escapedRune_shape wide c with ⟨ec, -⟩ | ⟨ec, -⟩ | ⟨t, ec, -⟩ | ⟨ec, -⟩ | ⟨ec, -⟩ | ec <;>
        rw [ec] at h <;> simp at h
    | cons d ds =>
      simp only [List.flatMap_cons, List.append_assoc] at h
      obtain ⟨h1, h2⟩ := escapedRune_prefix wide c d _ _ h
      rw [h1, ih ds h2]

/-- Quoting loses nothing: the quoted string determines the string. -/
theorem Quote_injective (wide : Nat → Bool) (s1 s2 : String)
    (h : Quote wide s1 = Quote wide s2) : s1 = s2 := by
  apply String.ext
  apply flatMap_escapedRune_inj wide
  have h1 := congrArg String.data h
  simp only [Quote, List.cons.injEq, true_and] at h1
  exact h1

theorem exchangeError_text_inj (wide : Nat → Bool) (e1 e2 : GoError)
    (h : exchangeError wide e1 = exchangeError wide e2) : e1.Error = e2.Error := by
  simp only [exchangeError, fmtQError, GoError.errorString.injEq] at h
  apply Quote_injective wide
  have h1 := congrArg String.data h
  simp only [String.data_append, List.append_cancel_left_eq] at h1
  exact String.ext h1

/-! ## Construction -/

/-- C6: `New` returns an error exactly when the configuration is nil, and then no server;
for a configuration that is not nil it returns a server and no error, whatever the options;
in neither case is `ListenAndServe` among its effects. -/
theorem New_error_iff_nil (lib : Collaborators) (oauthConfig : Option Config)
    (opts : List ServerOption) :
    ((New lib oauthConfig opts).1.2 ≠ none ↔ oauthConfig = none) ∧
    ((New lib oauthConfig opts).1.2 ≠ none → (New lib oauthConfig opts).1.1 = none) ∧
    (oauthConfig ≠ none →
      (New lib oauthConfig opts).1.1 ≠ none ∧ (New lib oauthConfig opts).1.2 = none) ∧
    ∀ addr, Effect.listenAndServe addr ∉ (New lib oauthConfig opts).2 := by
  cases oauthConfig with
  | none => simp [New]
  | some conf => simp [New]

theorem applyAll_host (opts : List ServerOption) (o : options) :
    (applyAll opts o).host =
      ((opts.filterMap fun x => match x with
        | .WithHost host => some host
        | _ => none).getLast?).getD o.host := by
  induction opts generalizing o with
  | nil => rfl
  | cons x xs ih =>
    simp only [applyAll, List.foldl_cons] at ih ⊢
    rw [ih]
    cases x <;> simp [ServerOption.apply, List.filterMap_cons, List.getLast?_cons]

theorem applyAll_port (opts : List ServerOption) (o : options) :
    (applyAll opts o).port =
      ((opts.filterMap fun x => match x with
        | .WithPort port => some port
        | _ => none).getLast?).getD o.port := by
  induction opts generalizing o with
  | nil => rfl
  | cons x xs ih =>
    simp only [applyAll, List.foldl_cons] at ih ⊢
    rw [ih]
    cases x <;> simp [ServerOption.apply, List.filterMap_cons, List.getLast?_cons]

theorem applyAll_redirectURL (opts : List ServerOption) (o : options) :
    (applyAll opts o).redirectURL =
      ((opts.filterMap fun x => match x with
        | .WithRedirectURL redirectURL => some redirectURL
        | _ => none).getLast?).getD o.redirectURL := by
  induction opts generalizing o with
  | nil => rfl
  | cons x xs ih =>
    simp only [applyAll, List.foldl_cons] at ih ⊢
    rw [ih]
    cases x <;> simp [ServerOption.apply, List.filterMap_cons, List.getLast?_cons]

theorem toDigitsCore_digits (fuel : Nat) : ∀ (n : Nat) (ds : List Char), n < fuel → 0 < n →
    Nat.toDigitsCore 10 fuel n ds = ((Nat.digits 10 n).reverse.map Nat.digitChar) ++ ds := by
  induction fuel with
  | zero => intro n ds h; omega
  | succ fuel ih =>
    intro n ds hlt hpos
    have hd : Nat.digits 10 n = (n % 10) :: Nat.digits 10 (n / 10) :=
      Nat.digits_def' (by norm_num) hpos
    simp only [Nat.toDigitsCore]
    by_cases h0 : n / 10 = 0
    · rw [if_pos h0, hd, h0]
      simp
    · rw [if_neg h0, ih (n / 10) _ (by omega) (Nat.pos_of_ne_zero h0), hd]
      simp

theorem digitChar_lt_ten (d : Nat) (h : d < 10) : Nat.digitChar d = Char.ofNat (48 + d) := by
  interval_cases d <;> rfl

theorem repr_digits (m : Nat) :
    (Nat.repr m).data =
      if m = 0 then ['0'] else (Nat.digits 10 m).reverse.map fun d => Char.ofNat (48 + d) := by
  by_cases hm : m = 0
  · subst hm
    rfl
  · rw [if_neg hm]
    simp only [Nat.repr, Nat.toDigits, List.asString]
    rw [toDigitsCore_digits (m + 1) m [] (Nat.lt_succ_self m) (Nat.pos_of_ne_zero hm),
      List.append_nil]
    apply List.map_congr_left
    intro d hd
    exact digitChar_lt_ten d (Nat.digits_lt_base (by norm_num) (List.mem_reverse.mp hd))

/-- The verb `%d` writes the decimal numeral. -/
theorem fmtD_eq_decimal (n : Int) : fmtD n = decimal n := by
  apply String.ext
  unfold fmtD decimal
  by_cases hn : n < 0
  · simp only [hn, if_true, String.data_append, repr_digits]
    rfl
  · simp only [hn, if_false, repr_digits]

/-- C7: for a configuration that is not nil, the server `New` returns holds the
configuration with `RedirectURL` set to `http://`, the chosen host, a colon, the decimal
numeral of the chosen port and the chosen callback path, each the default unless the options
give one, the last given winning; with no options it is
`http://localhost:14565/oauth/callback`, and for instance with host `127.0.0.1`, ports 8080
then 9090 and path `/cb` it is `http://127.0.0.1:9090/cb`. -/
theorem New_RedirectURL (lib : Collaborators) (conf : Config) (opts : List ServerOption) :
    (∃ s, New lib (some conf) opts = ((some s, none), [.randString 8]) ∧
      s.oauthConfig = { conf with
        RedirectURL := "http://" ++ chosenHost opts ++ ":" ++ decimal (chosenPort opts) ++
          chosenRedirectURL opts }) ∧
    (∃ s, New lib (some conf) [] = ((some s, none), [.randString 8]) ∧
      s.oauthConfig.RedirectURL = "http://localhost:14565/oauth/callback") ∧
    (∃ s, New lib (some conf) [.WithHost "127.0.0.1", .WithPort 8080, .WithPort 9090,
        .WithRedirectURL "/cb"] = ((some s, none), [.randString 8]) ∧
      s.oauthConfig.RedirectURL = "http://127.0.0.1:9090/cb") := by
  refine ⟨?_, ?_, ?_⟩
  · refine ⟨_, rfl, ?_⟩
    have hh : chosenHost opts = (applyAll opts defaultOptions).host := by
      rw [applyAll_host]; rfl
    have hp : chosenPort opts = (applyAll opts defaultOptions).port := by
      rw [applyAll_port]; rfl
    have hr : chosenRedirectURL opts = (applyAll opts defaultOptions).redirectURL := by
      rw [applyAll_redirectURL]; rfl
    rw [hh, hp, hr, ← fmtD_eq_decimal]
    split_ifs <;> rfl
  · refine ⟨_, rfl, ?_⟩
    show "http://" ++ DefaultHost ++ ":" ++ fmtD DefaultPort ++ DefaultRedirectURL = _
    decide
  · refine ⟨_, rfl, ?_⟩
    show "http://" ++ "127.0.0.1" ++ ":" ++ fmtD 9090 ++ "/cb" = _
    decide

theorem New_some_server (lib : Collaborators) (oauthConfig : Option Config)
    (opts : List ServerOption) (s : server) (h : (New lib oauthConfig opts).1.1 = some s) :
    s.oauthStateString = lib.rndmString 8 ∧ s.options.server ≠ none := by
  cases oauthConfig with
  | none => simp [New] at h
  | some conf =>
    simp only [New, Option.some.injEq] at h
    subst h
    refine ⟨rfl, ?_⟩
    dsimp only
    split_ifs with h1
    · simp
    · exact h1

theorem startHTTPServer_some (lib : Collaborators) (ctx : Context) (conf : Config)
    (opts : options) (s0 : RunState) (h : startHTTPServer lib ctx conf opts = some s0) :
    s0.ctx = ctx ∧ s0.conf = conf ∧ s0.successPage = opts.successPageContent ∧
      s0.token = none ∧ s0.err = none ∧ s0.receiving = true ∧ s0.done = false ∧
      s0.handlers = [] ∧ s0.performed = [] ∧ s0.returned = none := by
  unfold startHTTPServer at h
  split_ifs at h
  cases hs : opts.server with
  | none => simp [hs] at h
  | some srv =>
    simp only [hs, Option.some.injEq] at h
    subst h
    simp

theorem StartAndWaitForToken_some (lib : Collaborators) (s : server) (ctx : Context)
    (s0 : RunState) (h : s.StartAndWaitForToken lib ctx = some s0) :
    s0.ctx.Value (.int oauthStateStringContextKey) = some (.string s.oauthStateString) ∧
      s0.conf = s.oauthConfig ∧ s0.successPage = s.options.successPageContent ∧
      s0.token = none ∧ s0.err = none ∧ s0.receiving = true ∧ s0.done = false ∧
      s0.handlers = [] ∧ s0.performed = [] ∧ s0.returned = none := by
  obtain ⟨h1, h2⟩ := startHTTPServer_some lib _ _ _ s0 h
  refine ⟨?_, h2⟩
  rw [h1]
  simp [Context.WithValue, Context.Value]

/-- C8: for a server built by `New`, `AuthURL` leaves the server as it was, so a repeated
call returns the same URL; the state it hands to `AuthCodeURL` is the string `rndm.String(8)`
generated by `New`; `StartAndWaitForToken` stores that same string under
`oauthStateStringContextKey`; and the handler, run on any request carrying that state,
passes the state check and goes on to the exchange. -/
theorem AuthURL_state (lib : Collaborators) (oauthConfig : Option Config)
    (opts : List ServerOption) (s : server) (ctx : Context) (s0 : RunState)
    (hnew : (New lib oauthConfig opts).1.1 = some s)
    (hstart : s.StartAndWaitForToken lib ctx = some s0) :
    (s.AuthURL lib).2 = s ∧
    ((s.AuthURL lib).2.AuthURL lib).1 = (s.AuthURL lib).1 ∧
    (s.AuthURL lib).1 = lib.AuthCodeURL s.oauthConfig (lib.rndmString 8) [AccessTypeOffline] ∧
    s0.ctx.Value (.int oauthStateStringContextKey) = some (.string (lib.rndmString 8)) ∧
    ∀ r : Request, r.state = lib.rndmString 8 →
      ∃ rest, callbackHandler lib s0.ctx s0.conf s0.successPage r =
        some (.exchange r.code :: rest) := by
  obtain ⟨hst, -⟩ := New_some_server lib oauthConfig opts s hnew
  obtain ⟨hctx, -⟩ := StartAndWaitForToken_some lib s ctx s0 hstart
  rw [hst] at hctx
  refine ⟨rfl, rfl, ?_, hctx, fun r hr => ?_⟩
  · simp [server.AuthURL, hst]
  · rcases hex : lib.Exchange s0.conf s0.ctx r.code with ⟨tok, _ | e⟩
    · exact ⟨_, callbackHandler_success_eq lib _ _ _ r _ tok hctx hr hex⟩
    · exact ⟨_, callbackHandler_exchange_failed_eq lib _ _ _ r _ tok e hctx hr hex⟩

theorem AuthURL_state_witness :
    (exampleServer.AuthURL exampleLib).2 = exampleServer ∧
    ((exampleServer.AuthURL exampleLib).2.AuthURL exampleLib).1 =
      (exampleServer.AuthURL exampleLib).1 ∧
    (exampleServer.AuthURL exampleLib).1 =
      exampleLib.AuthCodeURL exampleServer.oauthConfig (exampleLib.rndmString 8)
        [AccessTypeOffline] ∧
    exampleStart.ctx.Value (.int oauthStateStringContextKey) =
      some (.string (exampleLib.rndmString 8)) ∧
    ∀ r : Request, r.state = exampleLib.rndmString 8 →
      ∃ rest, callbackHandler exampleLib exampleStart.ctx exampleStart.conf
          exampleStart.successPage r = some (.exchange r.code :: rest) :=
  AuthURL_state exampleLib (some exampleConf) [] exampleServer [] exampleStart rfl rfl

/-! ## Serving -/

/-- C5: `serveWithContext` returns the error `e` exactly when its `select` took the
`ctx.Done()` case and `Shutdown` returned `e`, or took the `ListenAndServe` case with an `e`
other than `http.ErrServerClosed`; `http.ErrServerClosed` is the one error it turns into
nil.  And when `serveWithContext` returns `e`, `startHTTPServer` returns a nil token and `e`,
whatever the named results hold. -/
theorem serveWithContext_error (c : SelectCase) (e : GoError) :
    (serveWithContext c = some e ↔
      c = .ctxDone (some e) ∨ (c = .listenReturned (some e) ∧ e ≠ .ErrServerClosed)) ∧
    (∀ e1, serveWithContext (.listenReturned (some e1)) = none ↔ e1 = .ErrServerClosed) ∧
    (serveWithContext c = some e →
      (∀ token err, startHTTPServerReturn token err c = (none, some e)) ∧
      ∀ (lib : Collaborators) (s : RunState), s.returned = none →
        (s.done = true ∨ ∃ le, c = .listenReturned le) →
        ∃ s1, step lib s (.select c) = some s1 ∧ s1.returned = some (none, some e)) := by
  refine ⟨?_, ?_, ?_⟩
  · cases c with
    | ctxDone sd => cases sd <;> simp [serveWithContext]
    | listenReturned le =>
      cases le with
      | none => simp [serveWithContext]
      | some e1 =>
        by_cases h : e1 = .ErrServerClosed
        · subst h
          simp [serveWithContext]
          intro h1
          exact h1.symm
        · simp only [serveWithContext, ne_eq, Option.some.injEq, h, not_false_eq_true, if_true,
            reduceCtorEq, false_or, SelectCase.listenReturned.injEq]
          constructor
          · intro h1; subst h1; exact ⟨rfl, h⟩
          · intro h1; exact h1.1
  · intro e1
    by_cases h : e1 = .ErrServerClosed <;> simp [serveWithContext, h]
  · intro h
    refine ⟨fun token err => by simp [startHTTPServerReturn, h], fun lib s hr hen => ?_⟩
    cases c with
    | ctxDone sd =>
      rcases hen with hd | ⟨le, hle⟩
      · exact ⟨{ s with returned := some (startHTTPServerReturn s.token s.err (.ctxDone sd)) },
          by simp [step, hr, hd], by simp [startHTTPServerReturn, h]⟩
      · cases hle
    | listenReturned le =>
      exact ⟨{ s with
          returned := some (startHTTPServerReturn s.token s.err (.listenReturned le)) },
        by simp [step, hr], by simp [startHTTPServerReturn, h]⟩

theorem serveWithContext_error_witness :
    (∀ token err,
        startHTTPServerReturn token err (.ctxDone (some (.errorString "context deadline exceeded")))
          = (none, some (.errorString "context deadline exceeded"))) ∧
      ∀ (lib : Collaborators) (s : RunState), s.returned = none →
        (s.done = true ∨
          ∃ le, SelectCase.ctxDone (some (.errorString "context deadline exceeded")) =
            .listenReturned le) →
        ∃ s1, step lib s (.select (.ctxDone (some (.errorString "context deadline exceeded"))))
            = some s1 ∧
          s1.returned = some (none, some (.errorString "context deadline exceeded")) :=
  (serveWithContext_error (.ctxDone (some (.errorString "context deadline exceeded")))
    (.errorString "context deadline exceeded")).2.2 (by decide)

/-! ## Runs of `startHTTPServer` -/

/-- The five ways a step can happen. -/
theorem step_cases (lib : Collaborators) (s s1 : RunState) (e : Event)
    (h : step lib s e = some s1) :
    (∃ r, e = .request r ∧ s.returned = none ∧
      s1 = { s with
        handlers := s.handlers ++
          [(callbackHandler lib s.ctx s.conf s.successPage r).getD []] }) ∨
    (∃ i a rest, e = .advance i ∧ s.handlers[i]? = some (a :: rest) ∧ a.isSend = false ∧
      s1 = { s with
        handlers := s.handlers.set i rest
        performed := s.performed ++ [(i, a)] }) ∨
    (∃ i a rest, e = .advance i ∧ s.handlers[i]? = some (a :: rest) ∧ a.isSend = true ∧
      s.receiving = true ∧
      s1 = receive { s with
        handlers := s.handlers.set i rest
        performed := s.performed ++ [(i, a)] } a) ∨
    (e = .cancelCtx ∧ s1 = { s with done := true }) ∨
    (∃ c, e = .select c ∧ s.returned = none ∧ (s.done = true ∨ ∃ le, c = .listenReturned le) ∧
      s1 = { s with returned := some (startHTTPServerReturn s.token s.err c) }) := by
  cases e with
  | request r =>
    left
    simp only [step] at h
    split_ifs at h with hr
    exact ⟨r, rfl, hr, (Option.some.inj h).symm⟩
  | advance i =>
    simp only [step] at h
    split at h
    · rename_i a rest hget
      split_ifs at h with hblock hsend
      · right; right; left
        refine ⟨i, a, rest, rfl, hget, hsend, ?_, (Option.some.inj h).symm⟩
        by_contra hrecv
        exact hblock ⟨hsend, by simpa using hrecv⟩
      · right; left
        exact ⟨i, a, rest, rfl, hget, by simpa using hsend, (Option.some.inj h).symm⟩
    · exact absurd h (by simp)
  | cancelCtx =>
    right; right; right; left
    exact ⟨rfl, (Option.some.inj h).symm⟩
  | select c =>
    right; right; right; right
    by_cases hr : s.returned = none
    · cases c with
      | ctxDone sd =>
        by_cases hd : s.done = true
        · have h1 : step lib s (.select (.ctxDone sd)) = some { s with
              returned := some (startHTTPServerReturn s.token s.err (.ctxDone sd)) } := by
            simp only [step, hr, ne_eq, not_true_eq_false, if_false]
            rw [if_pos hd]
          rw [h1] at h
          exact ⟨_, rfl, hr, Or.inl hd, (Option.some.inj h).symm⟩
        · simp [step, hr, hd] at h
      | listenReturned le =>
        simp only [step, hr, ne_eq, not_true_eq_false, if_false] at h
        exact ⟨_, rfl, hr, Or.inr ⟨le, rfl⟩, (Option.some.inj h).symm⟩
    · simp [step, hr] at h

theorem receive_send (s : RunState) (a : Action) (h : a.isSend = true) :
    (receive s a).receiving = false ∧ (receive s a).done = true ∧
      (receive s a).handlers = s.handlers ∧ (receive s a).performed = s.performed ∧
      (receive s a).returned = s.returned ∧ (receive s a).ctx = s.ctx ∧
      (receive s a).conf = s.conf ∧ (receive s a).successPage = s.successPage ∧
      ((∃ t, a = .sendToken t ∧ (receive s a).token = t ∧ (receive s a).err = s.err) ∨
        (∃ e, a = .sendErr e ∧ (receive s a).token = s.token ∧
          (receive s a).err = some e)) := by
  cases a <;> simp [Action.isSend] at h <;> simp [receive]

/-- A step leaves alone what the handler closure captured. -/
theorem step_frame (lib : Collaborators) (s s1 : RunState) (e : Event)
    (h : step lib s e = some s1) :
    s1.ctx = s.ctx ∧ s1.conf = s.conf ∧ s1.successPage = s.successPage := by
  rcases step_cases lib s s1 e h with ⟨r, -, -, rfl⟩ | ⟨i, a, rest, -, -, -, rfl⟩ |
    ⟨i, a, rest, -, -, hs, -, rfl⟩ | ⟨-, rfl⟩ | ⟨c, -, -, -, rfl⟩
  · simp
  · simp
  · obtain ⟨-, -, -, -, -, h1, h2, h3, -⟩ := receive_send
      { s with handlers := s.handlers.set i rest, performed := s.performed ++ [(i, a)] } a hs
    exact ⟨h1, h2, h3⟩
  · simp
  · simp

/-- While the supervising goroutine is still at its `select` after a step, it was before,
and the named results are untouched. -/
theorem step_receiving (lib : Collaborators) (s s1 : RunState) (e : Event)
    (h : step lib s e = some s1) (hr : s1.receiving = true) :
    s.receiving = true ∧ s1.token = s.token ∧ s1.err = s.err := by
  rcases step_cases lib s s1 e h with ⟨r, -, -, rfl⟩ | ⟨i, a, rest, -, -, -, rfl⟩ |
    ⟨i, a, rest, -, -, hs, -, rfl⟩ | ⟨-, rfl⟩ | ⟨c, -, -, -, rfl⟩
  · exact ⟨hr, rfl, rfl⟩
  · exact ⟨hr, rfl, rfl⟩
  · obtain ⟨h1, -⟩ := receive_send
      { s with handlers := s.handlers.set i rest, performed := s.performed ++ [(i, a)] } a hs
    rw [h1] at hr
    cases hr
  · exact ⟨hr, rfl, rfl⟩
  · exact ⟨hr, rfl, rfl⟩

/-- Once the supervising goroutine has received, a step changes neither the named results
nor that, and a handler standing at a send stays there. -/
theorem step_after_receive (lib : Collaborators) (s s1 : RunState) (e : Event)
    (h : step lib s e = some s1) (hr : s.receiving = false) :
    s1.receiving = false ∧ s1.token = s.token ∧ s1.err = s.err ∧
      ∀ (i : Nat) (a : Action) (rest : List Action), s.handlers[i]? = some (a :: rest) →
        a.isSend = true →
        s1.handlers[i]? = some (a :: rest) := by
  rcases step_cases lib s s1 e h with ⟨r, -, -, rfl⟩ | ⟨j, b, rest1, -, hj, hb, rfl⟩ |
    ⟨j, b, rest1, -, -, -, hrecv, -⟩ | ⟨-, rfl⟩ | ⟨c, -, -, -, rfl⟩
  · refine ⟨hr, rfl, rfl, fun i a rest hi _ => ?_⟩
    have hlt : i < s.handlers.length := by
      by_contra hge
      rw [List.getElem?_eq_none (Nat.le_of_not_lt hge)] at hi
      cases hi
    simp only
    rw [List.getElem?_append_left hlt]
    exact hi
  · refine ⟨hr, rfl, rfl, fun i a rest hi ha => ?_⟩
    have hne : j ≠ i := by
      intro hji
      subst hji
      rw [hj] at hi
      cases hi
      rw [ha] at hb
      cases hb
    simp only
    rw [List.getElem?_set_ne hne]
    exact hi
  · rw [hr] at hrecv
    cases hrecv
  · exact ⟨hr, rfl, rfl, fun i a rest hi _ => hi⟩
  · exact ⟨hr, rfl, rfl, fun i a rest hi _ => hi⟩

/-- A step delivers a value exactly when it ends the wait of the supervising goroutine. -/
theorem step_deliveries (lib : Collaborators) (s s1 : RunState) (e : Event)
    (h : step lib s e = some s1) :
    deliveries s1.performed + (if s1.receiving = true then 1 else 0) =
      deliveries s.performed + (if s.receiving = true then 1 else 0) := by
  rcases step_cases lib s s1 e h with ⟨r, -, -, rfl⟩ | ⟨i, a, rest, -, -, ha, rfl⟩ |
    ⟨i, a, rest, -, -, hs, hrecv, rfl⟩ | ⟨-, rfl⟩ | ⟨c, -, -, -, rfl⟩
  · rfl
  · simp [deliveries, List.countP_append, List.countP_cons, ha]
  · obtain ⟨h1, -, -, h2, -⟩ := receive_send
      { s with handlers := s.handlers.set i rest, performed := s.performed ++ [(i, a)] } a hs
    rw [h1, h2, hrecv]
    simp [deliveries, List.countP_append, List.countP_cons, hs]
  · rfl
  · rfl

/-- Once `startHTTPServer` has returned, its value stands. -/
theorem step_returned (lib : Collaborators) (s s1 : RunState) (e : Event)
    (h : step lib s e = some s1) (x : TokenPtr × Option GoError) (hx : s.returned = some x) :
    s1.returned = some x := by
  rcases step_cases lib s s1 e h with ⟨r, -, -, rfl⟩ | ⟨i, a, rest, -, -, -, rfl⟩ |
    ⟨i, a, rest, -, -, hs, -, rfl⟩ | ⟨-, rfl⟩ | ⟨c, -, hn, -, -⟩
  · exact hx
  · exact hx
  · obtain ⟨-, -, -, -, h1, -⟩ := receive_send
      { s with handlers := s.handlers.set i rest, performed := s.performed ++ [(i, a)] } a hs
    rw [h1]
    exact hx
  · exact hx
  · rw [hn] at hx
    cases hx

theorem run_cons (lib : Collaborators) (s s2 : RunState) (e : Event) (es : List Event)
    (h : run lib s (e :: es) = some s2) :
    ∃ s1, step lib s e = some s1 ∧ run lib s1 es = some s2 := by
  simp only [run] at h
  cases hs : step lib s e with
  | none => simp [hs] at h
  | some s1 => exact ⟨s1, rfl, by simpa [hs] using h⟩

theorem run_append (lib : Collaborators) (s : RunState) (es1 es2 : List Event) :
    run lib s (es1 ++ es2) =
      match run lib s es1 with
      | some s1 => run lib s1 es2
      | none => none := by
  induction es1 generalizing s with
  | nil => rfl
  | cons e es ih =>
    simp only [List.cons_append, run]
    cases step lib s e with
    | none => rfl
    | some s1 => exact ih s1

theorem run_frame (lib : Collaborators) (evs : List Event) (s s1 : RunState)
    (h : run lib s evs = some s1) :
    s1.ctx = s.ctx ∧ s1.conf = s.conf ∧ s1.successPage = s.successPage := by
  induction evs generalizing s with
  | nil => cases h; exact ⟨rfl, rfl, rfl⟩
  | cons e es ih =>
    obtain ⟨s2, h1, h2⟩ := run_cons lib s s1 e es h
    obtain ⟨a1, a2, a3⟩ := step_frame lib s s2 e h1
    obtain ⟨b1, b2, b3⟩ := ih s2 h2
    exact ⟨b1.trans a1, b2.trans a2, b3.trans a3⟩

theorem run_receiving (lib : Collaborators) (evs : List Event) (s s1 : RunState)
    (h : run lib s evs = some s1) (hr : s1.receiving = true) :
    s.receiving = true ∧ s1.token = s.token ∧ s1.err = s.err := by
  induction evs generalizing s with
  | nil => cases h; exact ⟨hr, rfl, rfl⟩
  | cons e es ih =>
    obtain ⟨s2, h1, h2⟩ := run_cons lib s s1 e es h
    obtain ⟨b1, b2, b3⟩ := ih s2 h2
    obtain ⟨a1, a2, a3⟩ := step_receiving lib s s2 e h1 b1
    exact ⟨a1, b2.trans a2, b3.trans a3⟩

theorem run_after_receive (lib : Collaborators) (evs : List Event) (s s1 : RunState)
    (h : run lib s evs = some s1) (hr : s.receiving = false) :
    s1.receiving = false ∧ s1.token = s.token ∧ s1.err = s.err ∧
      ∀ (i : Nat) (a : Action) (rest : List Action), s.handlers[i]? = some (a :: rest) →
        a.isSend = true →
        s1.handlers[i]? = some (a :: rest) := by
  induction evs generalizing s with
  | nil => cases h; exact ⟨hr, rfl, rfl, fun _ _ _ hi _ => hi⟩
  | cons e es ih =>
    obtain ⟨s2, h1, h2⟩ := run_cons lib s s1 e es h
    obtain ⟨a1, a2, a3, a4⟩ := step_after_receive lib s s2 e h1 hr
    obtain ⟨b1, b2, b3, b4⟩ := ih s2 h2 a1
    exact ⟨b1, b2.trans a2, b3.trans a3, fun i a rest hi ha => b4 i a rest (a4 i a rest hi ha) ha⟩

theorem run_deliveries (lib : Collaborators) (evs : List Event) (s s1 : RunState)
    (h : run lib s evs = some s1) :
    deliveries s1.performed + (if s1.receiving = true then 1 else 0) =
      deliveries s.performed + (if s.receiving = true then 1 else 0) := by
  induction evs generalizing s with
  | nil => cases h; rfl
  | cons e es ih =>
    obtain ⟨s2, h1, h2⟩ := run_cons lib s s1 e es h
    rw [ih s2 h2, step_deliveries lib s s2 e h1]

theorem run_returned (lib : Collaborators) (evs : List Event) (s s1 : RunState)
    (h : run lib s evs = some s1) (x : TokenPtr × Option GoError) (hx : s.returned = some x) :
    s1.returned = some x := by
  induction evs generalizing s with
  | nil => cases h; exact hx
  | cons e es ih =>
    obtain ⟨s2, h1, h2⟩ := run_cons lib s s1 e es h
    exact ih s2 h2 (step_returned lib s s2 e h1 x hx)

/-- While the supervising goroutine waits, `newCtx` is done only by the caller's cancel. -/
theorem run_done_by_cancel (lib : Collaborators) (evs : List Event) (s s1 : RunState)
    (h : run lib s evs = some s1) (hd : s.done = false) (hd1 : s1.done = true)
    (hwait : s1.receiving = true) : Event.cancelCtx ∈ evs := by
  induction evs generalizing s with
  | nil =>
    cases h
    rw [hd] at hd1
    cases hd1
  | cons e es ih =>
    obtain ⟨s2, h1, h2⟩ := run_cons lib s s1 e es h
    obtain ⟨hw2, -, -⟩ := run_receiving lib es s2 s1 h2 hwait
    rcases step_cases lib s s2 e h1 with ⟨r, -, -, hs2⟩ | ⟨i, a, rest, -, -, -, hs2⟩ |
      ⟨i, a, rest, -, -, hs, -, hs2⟩ | ⟨he, -⟩ | ⟨c, -, -, -, hs2⟩
    · exact List.mem_cons_of_mem _ (ih s2 h2 (by rw [hs2]; exact hd))
    · exact List.mem_cons_of_mem _ (ih s2 h2 (by rw [hs2]; exact hd))
    · exfalso
      obtain ⟨hf, -⟩ := receive_send
        { s with handlers := s.handlers.set i rest, performed := s.performed ++ [(i, a)] } a hs
      rw [← hs2, hw2] at hf
      cases hf
    · rw [he]
      exact List.mem_cons_self _ _
    · exact List.mem_cons_of_mem _ (ih s2 h2 (by rw [hs2]; exact hd))

/-- C2, as the code has it: in a run of `StartAndWaitForToken` in which no Outcome has been
produced (no send on `tokens` or `errs` has taken place) by the time `serveWithContext` leaves
through `ctx.Done()` with a clean `Shutdown`, the caller's context was cancelled, and the
call returns a nil token and a nil error, whatever happens afterwards: the cancellation is
not reported.  This covers every run in which the cancellation comes before any callback
request and no Outcome is produced. -/
theorem cancel_without_outcome_returns_nil_nil (lib : Collaborators) (s : server)
    (ctx : Context) (s0 s1 s2 : RunState) (pre post : List Event)
    (hstart : s.StartAndWaitForToken lib ctx = some s0)
    (hpre : run lib s0 pre = some s1)
    (hnone : deliveries s1.performed = 0)
    (hrest : run lib s1 (.select (.ctxDone none) :: post) = some s2) :
    Event.cancelCtx ∈ pre ∧ s2.returned = some (none, none) ∧
      s.waitResult lib ctx (pre ++ .select (.ctxDone none) :: post) = some (none, none) := by
  obtain ⟨-, -, -, htok, herr, hrecv0, hdone0, -, hperf0, -⟩ :=
    StartAndWaitForToken_some lib s ctx s0 hstart
  have hd := run_deliveries lib pre s0 s1 hpre
  rw [hnone, hperf0, hrecv0] at hd
  have hwait : s1.receiving = true := by
    by_contra hw
    simp [deliveries, hw] at hd
  obtain ⟨-, ht1, he1⟩ := run_receiving lib pre s0 s1 hpre hwait
  obtain ⟨s3, h3, hpost⟩ := run_cons lib s1 s2 _ post hrest
  rcases step_cases lib s1 s3 _ h3 with ⟨r, he, -⟩ | ⟨i, a, rest, he, -⟩ |
    ⟨i, a, rest, he, -⟩ | ⟨he, -⟩ | ⟨c, he, -, hen, hs3⟩
  · cases he
  · cases he
  · cases he
  · cases he
  · cases he
    have hdone1 : s1.done = true := by
      rcases hen with hdn | ⟨le, hle⟩
      · exact hdn
      · cases hle
    have hr3 : s3.returned = some (none, none) := by
      rw [hs3, ht1, he1, htok, herr]
      rfl
    have hr2 := run_returned lib post s3 s2 hpost _ hr3
    refine ⟨run_done_by_cancel lib pre s0 s1 hpre hdone0 hdone1 hwait, hr2, ?_⟩
    have hall : run lib s0 (pre ++ .select (.ctxDone none) :: post) = some s2 := by
      rw [run_append, hpre]
      exact hrest
    simp [server.waitResult, hstart, hall, hr2]

theorem cancel_without_outcome_returns_nil_nil_witness :
    Event.cancelCtx ∈ [Event.cancelCtx] ∧
      exampleCancelled.returned = some (none, none) ∧
      exampleServer.waitResult exampleLib [] ([.cancelCtx] ++ .select (.ctxDone none) :: []) =
        some (none, none) :=
  cancel_without_outcome_returns_nil_nil exampleLib exampleServer [] exampleStart
    { exampleStart with done := true } exampleCancelled [.cancelCtx] [] rfl rfl rfl rfl

/-- C2, as the claim has it, fails: the caller cancels before any request arrives, the
listener shuts down without error, and `StartAndWaitForToken` returns a nil token with a
nil error. -/
theorem cancel_before_callback_counterexample :
    exampleServer.waitResult exampleLib [] [.cancelCtx, .select (.ctxDone none)] =
        some (none, none) ∧
      ¬ ∃ e : GoError,
        exampleServer.waitResult exampleLib [] [.cancelCtx, .select (.ctxDone none)] =
          some (none, some e) := by
  have h : exampleServer.waitResult exampleLib [] [.cancelCtx, .select (.ctxDone none)] =
      some (none, none) := rfl
  refine ⟨h, ?_⟩
  rintro ⟨e, he⟩
  rw [h] at he
  cases he

theorem step_request_eq (lib : Collaborators) (s : RunState) (r : Request)
    (h : s.returned = none) :
    step lib s (.request r) = some { s with
      handlers := s.handlers ++
        [(callbackHandler lib s.ctx s.conf s.successPage r).getD []] } := by
  simp [step, h]

theorem step_advance_plain_eq (lib : Collaborators) (s : RunState) (i : Nat) (a : Action)
    (rest : List Action) (hget : s.handlers[i]? = some (a :: rest)) (ha : a.isSend = false) :
    step lib s (.advance i) = some { s with
      handlers := s.handlers.set i rest
      performed := s.performed ++ [(i, a)] } := by
  simp [step, hget, ha]

theorem step_advance_send_eq (lib : Collaborators) (s : RunState) (i : Nat) (a : Action)
    (rest : List Action) (hget : s.handlers[i]? = some (a :: rest)) (ha : a.isSend = true)
    (hr : s.receiving = true) :
    step lib s (.advance i) = some (receive { s with
      handlers := s.handlers.set i rest
      performed := s.performed ++ [(i, a)] } a) := by
  simp [step, hget, ha, hr]

theorem step_select_ctxDone_eq (lib : Collaborators) (s : RunState) (sd : Option GoError)
    (hret : s.returned = none) (hd : s.done = true) :
    step lib s (.select (.ctxDone sd)) = some { s with
      returned := some (startHTTPServerReturn s.token s.err (.ctxDone sd)) } := by
  simp only [step, hret, ne_eq, not_true_eq_false, if_false]
  rw [if_pos hd]

/-- A request that passes the state check and whose exchange succeeds, arriving while the
supervising goroutine waits and with `err` nil: its handler runs to the end, its token is
received, and a clean shutdown then returns that token with a nil error. -/
theorem run_success (lib : Collaborators) (s : RunState) (r : Request) (t : TokenPtr)
    (hctx : s.ctx.Value (.int oauthStateStringContextKey) = some (.string r.state))
    (hex : lib.Exchange s.conf s.ctx r.code = (t, none))
    (hwait : s.receiving = true) (herr : s.err = none) (hret : s.returned = none) :
    (run lib s [.request r, .advance s.handlers.length, .advance s.handlers.length,
        .advance s.handlers.length, .select (.ctxDone none)]).map
        (fun s1 => (s1.returned, s1.performed)) =
      some (some (t, none), s.performed ++ [(s.handlers.length, .exchange r.code),
        (s.handlers.length, .write s.successPage), (s.handlers.length, .sendToken t)]) := by
  have hh := callbackHandler_success_eq lib s.ctx s.conf s.successPage r r.state t hctx rfl hex
  simp only [run]
  rw [step_request_eq lib s r hret, hh]
  simp only [Option.getD_some]
  rw [step_advance_plain_eq lib _ s.handlers.length (.exchange r.code)
    [.write s.successPage, .sendToken t] (by simp) rfl]
  simp only
  rw [step_advance_plain_eq lib _ s.handlers.length (.write s.successPage)
    [.sendToken t] (by simp) rfl]
  simp only
  rw [step_advance_send_eq lib _ s.handlers.length (.sendToken t) [] (by simp) rfl
    (by exact hwait)]
  simp only
  rw [step_select_ctxDone_eq lib _ none (by simp [receive, hret]) (by simp [receive])]
  simp [receive, startHTTPServerReturn, serveWithContext, herr]

/-- C3: while `StartAndWaitForToken` is serving and no Outcome has been received, a request
arrives whose `state` is the flow state and on whose `code` the exchange succeeds with `t`.
The handler calls the exchange, then writes the configured success page, then sends `t` on
`tokens`, and sends nothing on `errs`; once the handler has run and the listener has shut
down without error, `StartAndWaitForToken` returns `t` and a nil error. -/
theorem callback_success_returns_token (lib : Collaborators) (s : server) (ctx : Context)
    (s0 s1 : RunState) (pre : List Event) (r : Request) (t : TokenPtr)
    (hstart : s.StartAndWaitForToken lib ctx = some s0)
    (hpre : run lib s0 pre = some s1)
    (hwait : s1.receiving = true) (hserving : s1.returned = none)
    (hstate : r.state = s.oauthStateString)
    (hex : lib.Exchange s.oauthConfig s0.ctx r.code = (t, none)) :
    callbackHandler lib s0.ctx s.oauthConfig s.options.successPageContent r =
        some [.exchange r.code, .write s.options.successPageContent, .sendToken t] ∧
    s.waitResult lib ctx (pre ++ [.request r, .advance s1.handlers.length,
        .advance s1.handlers.length, .advance s1.handlers.length, .select (.ctxDone none)]) =
      some (t, none) ∧
    ∃ s2, run lib s0 (pre ++ [.request r, .advance s1.handlers.length,
        .advance s1.handlers.length, .advance s1.handlers.length, .select (.ctxDone none)]) =
        some s2 ∧
      s2.performed = s1.performed ++ [(s1.handlers.length, .exchange r.code),
        (s1.handlers.length, .write s.options.successPageContent),
        (s1.handlers.length, .sendToken t)] := by
  obtain ⟨hctx, hconf, hpage, -, herr0, -⟩ := StartAndWaitForToken_some lib s ctx s0 hstart
  obtain ⟨f1, f2, f3⟩ := run_frame lib pre s0 s1 hpre
  obtain ⟨-, -, herr1⟩ := run_receiving lib pre s0 s1 hpre hwait
  rw [← hstate] at hctx
  have hex1 : lib.Exchange s1.conf s1.ctx r.code = (t, none) := by
    rw [f1, f2, hconf]; exact hex
  have hrun := run_success lib s1 r t (by rw [f1]; exact hctx) hex1 hwait
    (herr1.trans herr0) hserving
  obtain ⟨s2, hs2, hval⟩ := Option.map_eq_some'.mp hrun
  simp only [Prod.mk.injEq] at hval
  have hall : run lib s0 (pre ++ [.request r, .advance s1.handlers.length,
      .advance s1.handlers.length, .advance s1.handlers.length, .select (.ctxDone none)]) =
      some s2 := by
    rw [run_append, hpre]
    exact hs2
  refine ⟨?_, ?_, s2, hall, ?_⟩
  · rw [← hconf, ← hpage]
    exact callbackHandler_success_eq lib _ _ _ r r.state t hctx rfl (by rw [hconf]; exact hex)
  · simp only [server.waitResult, hstart, hall]
    exact hval.1
  · rw [hval.2, f3, hpage]

theorem callback_success_returns_token_witness :
    callbackHandler exampleLib exampleStart.ctx exampleServer.oauthConfig
        exampleServer.options.successPageContent ⟨"abcdefgh", "c1"⟩ =
        some [.exchange (Request.code ⟨"abcdefgh", "c1"⟩),
          .write exampleServer.options.successPageContent,
          .sendToken (some { AccessToken := "tok-c1" })] ∧
    exampleServer.waitResult exampleLib [] ([] ++ [.request ⟨"abcdefgh", "c1"⟩,
        .advance exampleStart.handlers.length, .advance exampleStart.handlers.length,
        .advance exampleStart.handlers.length, .select (.ctxDone none)]) =
      some (some { AccessToken := "tok-c1" }, none) ∧
    ∃ s2, run exampleLib exampleStart ([] ++ [.request ⟨"abcdefgh", "c1"⟩,
        .advance exampleStart.handlers.length, .advance exampleStart.handlers.length,
        .advance exampleStart.handlers.length, .select (.ctxDone none)]) = some s2 ∧
      s2.performed = exampleStart.performed ++
        [(exampleStart.handlers.length, .exchange (Request.code ⟨"abcdefgh", "c1"⟩)),
         (exampleStart.handlers.length, .write exampleServer.options.successPageContent),
         (exampleStart.handlers.length, .sendToken (some { AccessToken := "tok-c1" }))] :=
  callback_success_returns_token exampleLib exampleServer [] exampleStart exampleStart []
    ⟨"abcdefgh", "c1"⟩ (some { AccessToken := "tok-c1" }) rfl rfl rfl rfl rfl (by decide)

/-! ## The handoff -/

/-- C4, as the code has it: in every run of `StartAndWaitForToken` the supervising goroutine
receives at most one value, and it has received one exactly when it has left its `select`.
From then on the named results and a value already returned never change, and a handler
that stands at a send stays there in every continuation: its send is never received. -/
theorem handoff_single_delivery (lib : Collaborators) (s : server) (ctx : Context)
    (s0 s1 : RunState) (evs : List Event)
    (hstart : s.StartAndWaitForToken lib ctx = some s0)
    (hrun : run lib s0 evs = some s1) :
    deliveries s1.performed ≤ 1 ∧
    (deliveries s1.performed = 1 ↔ s1.receiving = false) ∧
    ∀ (evs2 : List Event) (s2 : RunState), run lib s1 evs2 = some s2 →
      (∀ x, s1.returned = some x → s2.returned = some x) ∧
      (s1.receiving = false →
        deliveries s2.performed = 1 ∧ s2.token = s1.token ∧ s2.err = s1.err ∧
        ∀ (i : Nat) (a : Action) (rest : List Action), s1.handlers[i]? = some (a :: rest) →
          a.isSend = true → s2.handlers[i]? = some (a :: rest)) := by
  obtain ⟨-, -, -, -, -, hrecv0, -, -, hperf0, -⟩ :=
    StartAndWaitForToken_some lib s ctx s0 hstart
  have hd := run_deliveries lib evs s0 s1 hrun
  rw [hperf0, hrecv0] at hd
  simp only [deliveries, List.countP_nil, if_true, Nat.zero_add] at hd
  rw [show List.countP (fun p => p.2.isSend) s1.performed = deliveries s1.performed from rfl]
    at hd
  have hcount : deliveries s1.performed ≤ 1 ∧
      (deliveries s1.performed = 1 ↔ s1.receiving = false) := by
    cases hr : s1.receiving
    · rw [hr] at hd
      have hd1 : deliveries s1.performed = 1 := by simpa using hd
      simp [hd1]
    · rw [hr] at hd
      have hd1 : deliveries s1.performed = 0 := by simpa using hd
      simp [hd1]
  refine ⟨hcount.1, hcount.2, fun evs2 s2 h2 => ⟨fun x hx => run_returned lib evs2 s1 s2 h2 x hx,
    fun hr => ?_⟩⟩
  obtain ⟨a1, a2, a3, a4⟩ := run_after_receive lib evs2 s1 s2 h2 hr
  have hd2 := run_deliveries lib evs2 s1 s2 h2
  rw [a1, hr] at hd2
  simp only [Bool.false_eq_true, if_false, Nat.add_zero] at hd2
  exact ⟨hd2.trans (hcount.2.mpr hr), a2, a3, a4⟩

theorem handoff_single_delivery_witness :
    deliveries exampleDelivered.performed ≤ 1 ∧
    (deliveries exampleDelivered.performed = 1 ↔ exampleDelivered.receiving = false) ∧
    ∀ (evs2 : List Event) (s2 : RunState), run exampleLib exampleDelivered evs2 = some s2 →
      (∀ x, exampleDelivered.returned = some x → s2.returned = some x) ∧
      (exampleDelivered.receiving = false →
        deliveries s2.performed = 1 ∧ s2.token = exampleDelivered.token ∧
        s2.err = exampleDelivered.err ∧
        ∀ (i : Nat) (a : Action) (rest : List Action),
          exampleDelivered.handlers[i]? = some (a :: rest) →
          a.isSend = true → s2.handlers[i]? = some (a :: rest)) :=
  handoff_single_delivery exampleLib exampleServer [] exampleStart exampleDelivered
    [.request ⟨"abcdefgh", "c1"⟩, .request ⟨"abcdefgh", "c2"⟩,
      .advance 0, .advance 0, .advance 1, .advance 1, .advance 0] rfl rfl

/-- C4, as the claim has it, fails: two requests with the right state reach the handler, the
token of the first is received, and the second handler then stands at its send on `tokens`
in every continuation of the run: it blocks for good. -/
theorem second_send_blocks_counterexample :
    exampleServer.StartAndWaitForToken exampleLib [] = some exampleStart ∧
      run exampleLib exampleStart
        [.request ⟨"abcdefgh", "c1"⟩, .request ⟨"abcdefgh", "c2"⟩,
          .advance 0, .advance 0, .advance 1, .advance 1, .advance 0] =
        some exampleDelivered ∧
      exampleDelivered.token = some { AccessToken := "tok-c1" } ∧
      deliveries exampleDelivered.performed = 1 ∧
      exampleDelivered.handlers[1]? =
        some [.sendToken (some { AccessToken := "tok-c2" })] ∧
      ∀ (evs : List Event) (s2 : RunState), run exampleLib exampleDelivered evs = some s2 →
        s2.handlers[1]? = some [.sendToken (some { AccessToken := "tok-c2" })] ∧
        step exampleLib s2 (.advance 1) = none := by
  refine ⟨rfl, rfl, rfl, rfl, rfl, fun evs s2 h2 => ?_⟩
  obtain ⟨a1, -, -, a4⟩ := run_after_receive exampleLib evs _ s2 h2 rfl
  have hget := a4 1 (.sendToken (some { AccessToken := "tok-c2" })) [] rfl rfl
  exact ⟨hget, by simp [step, hget, a1, Action.isSend]⟩

/-! ## Failing callbacks -/

/-- A request that fails the state check, arriving while the supervising goroutine waits:
its error is received and its handler then redirects. -/
theorem run_mismatch (lib : Collaborators) (s : RunState) (r : Request) (expected : String)
    (hctx : s.ctx.Value (.int oauthStateStringContextKey) = some (.string expected))
    (hne : r.state ≠ expected) (hwait : s.receiving = true) (hret : s.returned = none) :
    (run lib s [.request r, .advance s.handlers.length, .advance s.handlers.length]).map
        (fun s1 => (s1.performed, s1.handlers[s.handlers.length]?)) =
      some (s.performed ++
        [(s.handlers.length, .sendErr (stateError lib.isPrintWide expected r.state)),
         (s.handlers.length, .redirect "/" 307)], some []) := by
  have hh := callbackHandler_mismatch_eq lib s.ctx s.conf s.successPage r expected hctx hne
  simp only [run]
  rw [step_request_eq lib s r hret, hh]
  simp only [Option.getD_some]
  rw [step_advance_send_eq lib _ s.handlers.length
    (.sendErr (stateError lib.isPrintWide expected r.state))
    [.redirect "/" StatusTemporaryRedirect] (by simp) rfl (by exact hwait)]
  simp only
  rw [step_advance_plain_eq lib _ s.handlers.length (.redirect "/" StatusTemporaryRedirect) []
    (by simp [receive]) rfl]
  simp [receive, StatusTemporaryRedirect]

/-- A request that passes the state check and whose exchange fails, arriving while the
supervising goroutine waits: its error is received and its handler then redirects. -/
theorem run_exchange_failed (lib : Collaborators) (s : RunState) (r : Request)
    (tok : TokenPtr) (e : GoError)
    (hctx : s.ctx.Value (.int oauthStateStringContextKey) = some (.string r.state))
    (hex : lib.Exchange s.conf s.ctx r.code = (tok, some e))
    (hwait : s.receiving = true) (hret : s.returned = none) :
    (run lib s [.request r, .advance s.handlers.length, .advance s.handlers.length,
        .advance s.handlers.length]).map
        (fun s1 => (s1.performed, s1.handlers[s.handlers.length]?)) =
      some (s.performed ++
        [(s.handlers.length, .exchange r.code),
         (s.handlers.length, .sendErr (exchangeError lib.isPrintWide e)),
         (s.handlers.length, .redirect "/" 307)], some []) := by
  have hh := callbackHandler_exchange_failed_eq lib s.ctx s.conf s.successPage r r.state tok e
    hctx rfl hex
  simp only [run]
  rw [step_request_eq lib s r hret, hh]
  simp only [Option.getD_some]
  rw [step_advance_plain_eq lib _ s.handlers.length (.exchange r.code)
    [.sendErr (exchangeError lib.isPrintWide e), .redirect "/" StatusTemporaryRedirect]
    (by simp) rfl]
  simp only
  rw [step_advance_send_eq lib _ s.handlers.length (.sendErr (exchangeError lib.isPrintWide e))
    [.redirect "/" StatusTemporaryRedirect] (by simp) rfl (by exact hwait)]
  simp only
  rw [step_advance_plain_eq lib _ s.handlers.length (.redirect "/" StatusTemporaryRedirect) []
    (by simp [receive]) rfl]
  simp [receive, StatusTemporaryRedirect]

/-- While a handler stands at a send that cannot be received, a step adds nothing to what
that handler has performed. -/
theorem step_blocked_log (lib : Collaborators) (s s1 : RunState) (e : Event)
    (h : step lib s e = some s1) (hr : s.receiving = false) (i : Nat) (a : Action)
    (rest : List Action) (hi : s.handlers[i]? = some (a :: rest)) (ha : a.isSend = true) :
    s1.performed.filter (fun p => p.1 = i) = s.performed.filter (fun p => p.1 = i) := by
  rcases step_cases lib s s1 e h with ⟨r, -, -, rfl⟩ | ⟨j, b, rest1, -, hj, hb, rfl⟩ |
    ⟨j, b, rest1, -, -, -, hrecv, -⟩ | ⟨-, rfl⟩ | ⟨c, -, -, -, rfl⟩
  · rfl
  · have hne : j ≠ i := by
      intro hji
      subst hji
      rw [hj] at hi
      cases hi
      rw [ha] at hb
      cases hb
    simp [List.filter_append, hne]
  · rw [hr] at hrecv
    cases hrecv
  · rfl
  · rfl

theorem run_blocked_log (lib : Collaborators) (evs : List Event) (s s1 : RunState)
    (h : run lib s evs = some s1) (hr : s.receiving = false) (i : Nat) (a : Action)
    (rest : List Action) (hi : s.handlers[i]? = some (a :: rest)) (ha : a.isSend = true) :
    s1.performed.filter (fun p => p.1 = i) = s.performed.filter (fun p => p.1 = i) := by
  induction evs generalizing s with
  | nil => cases h; rfl
  | cons e es ih =>
    obtain ⟨s2, h1, h2⟩ := run_cons lib s s1 e es h
    obtain ⟨a1, -, -, a4⟩ := step_after_receive lib s s2 e h1 hr
    rw [ih s2 h2 a1 (a4 i a rest hi ha), step_blocked_log lib s s2 e h1 hr i a rest hi ha]

/-- C9, as the code has it: a callback that fails (state mismatch, or state match and an
exchange error) has a handler that sends exactly one value, an error, sends no token and
never writes a body; in the exchange-failure case the text of the error is
`oauthoauthConfig.Exchange() failed with ` followed by the quoted text of `e`, from which the
text of `e` can be read back.  When the request arrives while `StartAndWaitForToken` serves
and no Outcome has been received, the send is received and the handler then answers with the
307 redirect to `/` and ends. -/
theorem callbackHandler_failure (lib : Collaborators) (s : server) (ctx : Context)
    (s0 s1 : RunState) (pre : List Event) (r : Request)
    (hstart : s.StartAndWaitForToken lib ctx = some s0)
    (hpre : run lib s0 pre = some s1)
    (hwait : s1.receiving = true) (hserving : s1.returned = none)
    (hfail : r.state ≠ s.oauthStateString ∨
      ∃ tok e, lib.Exchange s.oauthConfig s0.ctx r.code = (tok, some e)) :
    ∃ acts sent,
      callbackHandler lib s0.ctx s.oauthConfig s.options.successPageContent r = some acts ∧
      acts.filter Action.isResponse = [.redirect "/" 307] ∧
      acts.countP Action.isWrite = 0 ∧
      acts.filter Action.isSend = [.sendErr sent] ∧
      acts.countP Action.isSendToken = 0 ∧
      (r.state = s.oauthStateString → ∀ tok e,
        lib.Exchange s.oauthConfig s0.ctx r.code = (tok, some e) →
        sent.Error = "oauthoauthConfig.Exchange() failed with " ++
          Quote lib.isPrintWide e.Error ∧
        ∀ e2, exchangeError lib.isPrintWide e2 = sent → e2.Error = e.Error) ∧
      ∃ s2, run lib s0 (pre ++ .request r ::
          List.replicate acts.length (.advance s1.handlers.length)) = some s2 ∧
        s2.performed = s1.performed ++ acts.map (fun a => (s1.handlers.length, a)) ∧
        s2.handlers[s1.handlers.length]? = some [] := by
  obtain ⟨hctx, hconf, hpage, -⟩ := StartAndWaitForToken_some lib s ctx s0 hstart
  obtain ⟨f1, f2, f3⟩ := run_frame lib pre s0 s1 hpre
  by_cases hst : r.state = s.oauthStateString
  · rcases hfail with hne | ⟨tok, e, hex⟩
    · exact absurd hst hne
    · rw [← hst] at hctx
      have hex1 : lib.Exchange s1.conf s1.ctx r.code = (tok, some e) := by
        rw [f1, f2, hconf]; exact hex
      have hrun := run_exchange_failed lib s1 r tok e (by rw [f1]; exact hctx) hex1 hwait
        hserving
      obtain ⟨s2, hs2, hval⟩ := Option.map_eq_some'.mp hrun
      simp only [Prod.mk.injEq] at hval
      refine ⟨[.exchange r.code, .sendErr (exchangeError lib.isPrintWide e),
          .redirect "/" StatusTemporaryRedirect], exchangeError lib.isPrintWide e, ?_, ?_, ?_,
        ?_, ?_, ?_, s2, ?_, ?_, hval.2⟩
      · rw [← hconf, ← hpage]
        exact callbackHandler_exchange_failed_eq lib _ _ _ r r.state tok e hctx rfl
          (by rw [hconf]; exact hex)
      · simp [List.filter, Action.isResponse, StatusTemporaryRedirect]
      · simp [List.countP_cons, Action.isWrite]
      · simp [List.filter, Action.isSend]
      · simp [List.countP_cons, Action.isSendToken]
      · intro _ tok2 e2 hex2
        rw [hex] at hex2
        cases hex2
        exact ⟨rfl, fun e3 h3 => exchangeError_text_inj _ _ _ h3⟩
      · rw [run_append, hpre]
        exact hs2
      · rw [hval.1]
        simp [StatusTemporaryRedirect]
  · have hne : r.state ≠ s.oauthStateString := hst
    have hrun := run_mismatch lib s1 r s.oauthStateString (by rw [f1]; exact hctx) hne hwait
      hserving
    obtain ⟨s2, hs2, hval⟩ := Option.map_eq_some'.mp hrun
    simp only [Prod.mk.injEq] at hval
    refine ⟨[.sendErr (stateError lib.isPrintWide s.oauthStateString r.state),
        .redirect "/" StatusTemporaryRedirect],
      stateError lib.isPrintWide s.oauthStateString r.state, ?_, ?_, ?_, ?_, ?_, ?_, s2, ?_, ?_,
      hval.2⟩
    · rw [← hconf, ← hpage]
      exact callbackHandler_mismatch_eq lib _ _ _ r _ hctx hne
    · simp [List.filter, Action.isResponse, StatusTemporaryRedirect]
    · simp [List.countP_cons, Action.isWrite]
    · simp [List.filter, Action.isSend]
    · simp [List.countP_cons, Action.isSendToken]
    · intro h
      exact absurd h hst
    · rw [run_append, hpre]
      exact hs2
    · rw [hval.1]
      simp [StatusTemporaryRedirect]

theorem callbackHandler_failure_witness :
    (∃ acts sent,
      callbackHandler exampleLib exampleStart.ctx exampleServer.oauthConfig
        exampleServer.options.successPageContent ⟨"x", "c"⟩ = some acts ∧
      acts.filter Action.isResponse = [.redirect "/" 307] ∧
      acts.countP Action.isWrite = 0 ∧
      acts.filter Action.isSend = [.sendErr sent] ∧
      acts.countP Action.isSendToken = 0 ∧
      (Request.state ⟨"x", "c"⟩ = exampleServer.oauthStateString → ∀ tok e,
        exampleLib.Exchange exampleServer.oauthConfig exampleStart.ctx
          (Request.code ⟨"x", "c"⟩) = (tok, some e) →
        sent.Error = "oauthoauthConfig.Exchange() failed with " ++
          Quote exampleLib.isPrintWide e.Error ∧
        ∀ e2, exchangeError exampleLib.isPrintWide e2 = sent → e2.Error = e.Error) ∧
      ∃ s2, run exampleLib exampleStart ([] ++ .request ⟨"x", "c"⟩ ::
          List.replicate acts.length (.advance exampleStart.handlers.length)) = some s2 ∧
        s2.performed = exampleStart.performed ++
          acts.map (fun a => (exampleStart.handlers.length, a)) ∧
        s2.handlers[exampleStart.handlers.length]? = some []) ∧
    (∃ acts sent,
      callbackHandler exampleLib exampleStart.ctx exampleServer.oauthConfig
        exampleServer.options.successPageContent ⟨"abcdefgh", "bad"⟩ = some acts ∧
      acts.filter Action.isResponse = [.redirect "/" 307] ∧
      acts.countP Action.isWrite = 0 ∧
      acts.filter Action.isSend = [.sendErr sent] ∧
      acts.countP Action.isSendToken = 0 ∧
      (Request.state ⟨"abcdefgh", "bad"⟩ = exampleServer.oauthStateString → ∀ tok e,
        exampleLib.Exchange exampleServer.oauthConfig exampleStart.ctx
          (Request.code ⟨"abcdefgh", "bad"⟩) = (tok, some e) →
        sent.Error = "oauthoauthConfig.Exchange() failed with " ++
          Quote exampleLib.isPrintWide e.Error ∧
        ∀ e2, exchangeError exampleLib.isPrintWide e2 = sent → e2.Error = e.Error) ∧
      ∃ s2, run exampleLib exampleStart ([] ++ .request ⟨"abcdefgh", "bad"⟩ ::
          List.replicate acts.length (.advance exampleStart.handlers.length)) = some s2 ∧
        s2.performed = exampleStart.performed ++
          acts.map (fun a => (exampleStart.handlers.length, a)) ∧
        s2.handlers[exampleStart.handlers.length]? = some []) :=
  ⟨callbackHandler_failure exampleLib exampleServer [] exampleStart exampleStart []
      ⟨"x", "c"⟩ rfl rfl rfl rfl (Or.inl (by decide)),
    callbackHandler_failure exampleLib exampleServer [] exampleStart exampleStart []
      ⟨"abcdefgh", "bad"⟩ rfl rfl rfl rfl
      (Or.inr ⟨none, .errorString "invalid_grant", rfl⟩)⟩

/-- C9, as the claim has it, fails: two requests with a wrong state reach the handler, the
error of the first is received and its handler redirects; the second handler then stands at
its send on `errs` in every continuation of the run, its redirect still ahead of it: it
never answers. -/
theorem second_failure_no_redirect_counterexample :
    exampleServer.StartAndWaitForToken exampleLib [] = some exampleStart ∧
      run exampleLib exampleStart
        [.request ⟨"x", "c"⟩, .request ⟨"y", "c"⟩, .advance 0, .advance 0] =
        some exampleRejected ∧
      callbackHandler exampleLib exampleStart.ctx exampleStart.conf exampleStart.successPage
        ⟨"y", "c"⟩ =
        some [.sendErr (.errorString "invalid oauth state, expected \"abcdefgh\", got \"y\""),
          .redirect "/" 307] ∧
      ∀ (evs : List Event) (s2 : RunState), run exampleLib exampleRejected evs = some s2 →
        s2.handlers[1]? =
          some [.sendErr (.errorString "invalid oauth state, expected \"abcdefgh\", got \"y\""),
            .redirect "/" 307] ∧
        s2.performed.filter (fun p => p.1 = 1) = [] ∧
        step exampleLib s2 (.advance 1) = none := by
  refine ⟨rfl, rfl, rfl, fun evs s2 h2 => ?_⟩
  obtain ⟨a1, -, -, a4⟩ := run_after_receive exampleLib evs _ s2 h2 rfl
  have hget := a4 1
    (.sendErr (.errorString "invalid oauth state, expected \"abcdefgh\", got \"y\""))
    [.redirect "/" 307] rfl rfl
  have hlog := run_blocked_log exampleLib evs exampleRejected s2 h2 rfl 1
    (.sendErr (.errorString "invalid oauth state, expected \"abcdefgh\", got \"y\""))
    [.redirect "/" 307] rfl rfl
  refine ⟨hget, ?_, by simp [step, hget, a1, Action.isSend]⟩
  rw [hlog]
  rfl

end Oauth2nosrv
